import Mathlib

/-!
Verification of the pgtenant SQL rewriter (conn.go, transform.go) against its
specification.  Strings are modelled as lists of characters; Go maps whose
iteration order is irrelevant (or used through a sort) are modelled as
association lists in insertion order.  The transformer's recursion is fueled:
every recursive function consumes one unit of fuel per call and fails on
exhaustion, so all statements quantify over the fuel and concrete evaluations
use an ample amount.
-/

namespace Pgtenant

abbrev Str := List Char

def chars (s : String) : Str := s.data

def natStr (n : Nat) : Str := (Nat.repr n).data

def intStr (i : Int) : Str := (Int.repr i).data

-- The single-quote character (U+0027), written via its code point.
def squoteChar : Char := Char.ofNat 39

-- The double-quote character (U+0022).
def dquoteChar : Char := Char.ofNat 34

/-- Go's unicode.IsSpace: the Unicode White_Space code points. -/
def goIsSpace (c : Char) : Bool :=
  c = ' ' || c = '\t' || c = '\n' || c = '\r' || c.toNat = 11 || c.toNat = 12 ||
  c.toNat = 0x85 || c.toNat = 0xA0 || c.toNat = 0x1680 ||
  (0x2000 ≤ c.toNat && c.toNat ≤ 0x200A) || c.toNat = 0x2028 || c.toNat = 0x2029 ||
  c.toNat = 0x202F || c.toNat = 0x205F || c.toNat = 0x3000

/-- Go's strings.TrimSpace: drop White_Space characters from both ends. -/
def trimSpace (l : Str) : Str :=
  ((l.dropWhile goIsSpace).reverse.dropWhile goIsSpace).reverse

/-- Go's strings.Split(q, "\n"): split at newlines; never returns an empty list. -/
def splitOnNl : Str → List Str
  | [] => [[]]
  | c :: rest =>
    if c = '\n' then [] :: splitOnNl rest
    else
      match splitOnNl rest with
      | h :: t => (c :: h) :: t
      | [] => [[c]]

/-- Go's strings.Join. -/
def joinSep (sep : Str) : List Str → Str
  | [] => []
  | [x] => x
  | x :: xs => x ++ sep ++ joinSep sep xs

/-- conn.go normalize: trim every line, drop leading and trailing empty lines,
join the rest with single spaces.  The two Go loops that shrink the slice from
the front and from the back are the two dropWhile passes. -/
def normalize (q : Str) : Str :=
  let lines := (splitOnNl q).map trimSpace
  let lines := lines.dropWhile List.isEmpty
  let lines := (lines.reverse.dropWhile List.isEmpty).reverse
  joinSep (chars " ") lines

/-! ## Parse-tree model

One constructor per pg_query node kind that transform.go dispatches on, plus
`unknownNode` standing for every other node type a parse tree can contain
(the Go switch's default case).  Fields the rewriter never reads are omitted.
Sub-structures that Go reaches through typed pointers (WithClause,
OnConflictClause, InferClause, IndexElem, CommonTableExpr) are ordinary
constructors; where Go's type system makes a shape impossible, the model's
extra match arms return errors and are marked unreachable in comments.
Constant values (nodes.Integer, nodes.Float, nodes.String, nodes.Null,
nodes.BitString) are themselves node types in Go and appear here likewise;
`bitStringNode` also stands for any other value kind inside an A_Const. -/

inductive Status where
  | noStatus
  | needsTenantID
  | hasTenantID
  | isCTE
  | isLeftJoinTable
deriving DecidableEq, Repr

inductive AExprKind where
  | aexprOp
  | aexprOpAny
  | aexprNullif
  | aexprOther (code : Nat)
deriving DecidableEq, Repr

inductive BoolOpKind where
  | andExpr
  | orExpr
  | notExpr
deriving DecidableEq, Repr

inductive JoinKind where
  | joinInner
  | joinLeft
  | joinOther (code : Nat)
deriving DecidableEq, Repr

inductive SubLinkKind where
  | existsSublink
  | anySublink
  | otherSublink (code : Nat)
deriving DecidableEq, Repr

inductive SvfOp where
  | svfCurrentTimestamp
  | svfOther (code : Nat)
deriving DecidableEq, Repr

inductive NullTestKind where
  | isNullTest
  | isNotNullTest
deriving DecidableEq, Repr

inductive SortDirKind where
  | sortbyDefault
  | sortbyAsc
  | sortbyDesc
  | sortbyUsing
deriving DecidableEq, Repr

inductive OnConflictAction where
  | onconflictNone
  | onconflictNothing
  | onconflictUpdate
deriving DecidableEq, Repr

inductive Node where
  | rawStmt (stmt : Node)
  | insertStmt (relname : Str) (al : Option Str) (cols : List Node)
      (sel : Option Node) (onConflict : Option Node) (returning : List Node)
      (withCl : Option Node)
  | selectStmt (distinct : List Node) (targets : List Node) (froms : List Node)
      (whereCl : Option Node) (group : List Node) (having : Option Node)
      (sortCl : List Node) (limitCount : Option Node)
      (valuesLists : List (List Node)) (withCl : Option Node)
  | updateStmt (relname : Str) (al : Option Str) (targets : List Node)
      (froms : List Node) (whereCl : Option Node) (returning : List Node)
      (withCl : Option Node)
  | deleteStmt (relname : Str) (al : Option Str) (usingCl : List Node)
      (whereCl : Option Node)
  | withClause (recursive : Bool) (ctes : List Node)
  | commonTableExpr (ctename : Str) (ctequery : Node)
  | onConflictClause (action : OnConflictAction) (infer : Option Node)
      (targets : List Node) (whereCl : Option Node)
  | inferClause (indexElems : List Node)
  | indexElem (name : Str)
  | rangeSubselect (subquery : Node) (al : Option Str)
  | paramRef (number : Nat)
  | typeCast (arg : Node) (tnNames : List Node) (tnBounds : List Node)
  | resTarget (name : Option Str) (val : Option Node)
  | columnRef (fields : List Node)
  | aStar
  | stringNode (s : Str)
  | integerNode (i : Int)
  | floatNode (s : Str)
  | nullNode
  | bitStringNode (s : Str)
  | aConst (val : Node)
  | aExpr (kind : AExprKind) (name : List Node) (lexpr : Option Node)
      (rexpr : Option Node)
  | funcCall (funcname : List Node) (args : List Node) (aggStar : Bool)
  | boolExpr (op : BoolOpKind) (args : List Node)
  | subLink (ty : SubLinkKind) (testexpr : Option Node) (subselect : Node)
  | rangeVar (relname : Str) (al : Option Str)
  | coalesceExpr (args : List Node)
  | setToDefault
  | nullTest (arg : Node) (ty : NullTestKind)
  | caseExpr (arg : Option Node) (args : List Node) (defresult : Option Node)
  | caseWhen (expr : Node) (result : Node)
  | joinExpr (jt : JoinKind) (larg : Node) (rarg : Node) (quals : Option Node)
  | rangeFunction (functions : List Node) (aliasName : Option Str)
      (aliasCols : List Node)
  | listNode (items : List Node)
  | rowExpr (args : List Node)
  | sqlValueFunction (op : SvfOp)
  | sortBy (node : Node) (dir : SortDirKind)
  | unknownNode (desc : Str)

/-! ## findMaxParam

transform.go findMaxParam walks the whole tree by reflection and returns the
largest ParamRef number (0 if none).  The structural walk below visits every
child of every modelled constructor; fields of other Go kinds (strings, ints,
bools) yield 0 under the reflection walk and are skipped here likewise. -/

mutual

def findMaxParamNode : Node → Nat
  | .rawStmt s => findMaxParamNode s
  | .insertStmt _ _ cols sel onConf ret withCl =>
    max (findMaxParamList cols)
      (max (findMaxParamOpt sel)
        (max (findMaxParamOpt onConf)
          (max (findMaxParamList ret) (findMaxParamOpt withCl))))
  | .selectStmt d t f w g h s l v wc =>
    max (findMaxParamList d)
      (max (findMaxParamList t)
        (max (findMaxParamList f)
          (max (findMaxParamOpt w)
            (max (findMaxParamList g)
              (max (findMaxParamOpt h)
                (max (findMaxParamList s)
                  (max (findMaxParamOpt l)
                    (max (findMaxParamLL v) (findMaxParamOpt wc)))))))))
  | .updateStmt _ _ t f w ret wc =>
    max (findMaxParamList t)
      (max (findMaxParamList f)
        (max (findMaxParamOpt w)
          (max (findMaxParamList ret) (findMaxParamOpt wc))))
  | .deleteStmt _ _ u w => max (findMaxParamList u) (findMaxParamOpt w)
  | .withClause _ ctes => findMaxParamList ctes
  | .commonTableExpr _ q => findMaxParamNode q
  | .onConflictClause _ infer t w =>
    max (findMaxParamOpt infer)
      (max (findMaxParamList t) (findMaxParamOpt w))
  | .inferClause elems => findMaxParamList elems
  | .indexElem _ => 0
  | .rangeSubselect sub _ => findMaxParamNode sub
  | .paramRef n => n
  | .typeCast arg tn tb =>
    max (findMaxParamNode arg)
      (max (findMaxParamList tn) (findMaxParamList tb))
  | .resTarget _ v => findMaxParamOpt v
  | .columnRef fields => findMaxParamList fields
  | .aStar => 0
  | .stringNode _ => 0
  | .integerNode _ => 0
  | .floatNode _ => 0
  | .nullNode => 0
  | .bitStringNode _ => 0
  | .aConst v => findMaxParamNode v
  | .aExpr _ name l r =>
    max (findMaxParamList name)
      (max (findMaxParamOpt l) (findMaxParamOpt r))
  | .funcCall fn args _ => max (findMaxParamList fn) (findMaxParamList args)
  | .boolExpr _ args => findMaxParamList args
  | .subLink _ te sub => max (findMaxParamOpt te) (findMaxParamNode sub)
  | .rangeVar _ _ => 0
  | .coalesceExpr args => findMaxParamList args
  | .setToDefault => 0
  | .nullTest arg _ => findMaxParamNode arg
  | .caseExpr arg args defres =>
    max (findMaxParamOpt arg)
      (max (findMaxParamList args) (findMaxParamOpt defres))
  | .caseWhen e r => max (findMaxParamNode e) (findMaxParamNode r)
  | .joinExpr _ l r q =>
    max (findMaxParamNode l)
      (max (findMaxParamNode r) (findMaxParamOpt q))
  | .rangeFunction fns _ cols =>
    max (findMaxParamList fns) (findMaxParamList cols)
  | .listNode items => findMaxParamList items
  | .rowExpr args => findMaxParamList args
  | .sqlValueFunction _ => 0
  | .sortBy n _ => findMaxParamNode n
  | .unknownNode _ => 0

def findMaxParamList : List Node → Nat
  | [] => 0
  | n :: rest => max (findMaxParamNode n) (findMaxParamList rest)

def findMaxParamOpt : Option Node → Nat
  | none => 0
  | some n => findMaxParamNode n

def findMaxParamLL : List (List Node) → Nat
  | [] => 0
  | l :: rest => max (findMaxParamList l) (findMaxParamLL rest)

end

/-! ## Environment

transform.go `environ` is a Go map from table-or-alias name to status.
It is modelled as an association list with unique keys kept in insertion
order; a missing key reads as `noStatus` (the Go zero value).  The only place
the code depends on map iteration order is the promotion loop in
transformWhere, which stops at the first `isLeftJoinTable` entry; the model
determinizes that order to insertion order. -/

abbrev Env := List (Str × Status)

def newEnv : Env := []

def envGet : Env → Str → Status
  | [], _ => .noStatus
  | (k, v) :: rest, key => if k = key then v else envGet rest key

def envSet : Env → Str → Status → Env
  | [], key, v => [(key, v)]
  | (k, w) :: rest, key, v =>
    if k = key then (k, v) :: rest else (k, w) :: envSet rest key v

/-- transform.go maybeSetIsLeftJoinTable: if some table already holds the
isLeftJoinTable status, do nothing; otherwise set the given name to it
(whatever its current status is). -/
def maybeSetIsLeftJoinTable (env : Env) (table : Str) : Env :=
  if env.any (fun kv => kv.2 = Status.isLeftJoinTable) then env
  else envSet env table .isLeftJoinTable

/-- The promotion loop at the top of transformWhere: the first (and, when the
uniqueness invariant holds, only) isLeftJoinTable entry becomes
needsTenantID. -/
def promoteFirstLJT : Env → Env
  | [] => []
  | (k, v) :: rest =>
    if v = Status.isLeftJoinTable then (k, Status.needsTenantID) :: rest
    else (k, v) :: promoteFirstLJT rest

/-- handleCTE's propagation loop: every isCTE entry of the inner environment
is copied into the outer one. -/
def propagateCTEs (sub env : Env) : Env :=
  sub.foldl (fun e p => if p.2 = Status.isCTE then envSet e p.1 .isCTE else e) env

/-! ## Emitter primitives -/

/-- transform.go safestr: quote the three reserved identifiers via
pq.QuoteIdentifier (wrap in double quotes; none of the three contains a
quote, so no doubling occurs). -/
def safestr (s : Str) : Str :=
  if s = chars "position" || s = chars "timestamp" || s = chars "type" then
    dquoteChar :: (s ++ [dquoteChar])
  else s

/-- transform.go escape: double every single quote. -/
def escape : Str → Str
  | [] => []
  | c :: rest =>
    if c = squoteChar then c :: c :: escape rest else c :: escape rest

/-- Byte-order comparison of Go strings (UTF-8 order agrees with code-point
order), used through sort.StringSlice. -/
def strLe : Str → Str → Bool
  | [], _ => true
  | _ :: _, [] => false
  | a :: as, b :: bs => if a = b then strLe as bs else decide (a < b)

/-- sort.StringSlice.Sort on a duplicate-free list of keys: any sorting
algorithm yields the same result, modelled with insertion sort. -/
def sortStrs (l : List Str) : List Str :=
  List.insertionSort (fun a b => strLe a b = true) l

/-- transform.go extractTablesAux: collect table names (alias when present)
from RangeVar, JoinExpr and aliased RangeSubselect nodes.  The Go target is a
map used only for its key set; here a duplicate-free list. -/
def extractTablesAux : Node → List Str → List Str
  | .rangeVar rn al, out =>
    let key := match al with | some a => a | none => rn
    if out.contains key then out else out ++ [key]
  | .joinExpr _ larg rarg _, out => extractTablesAux rarg (extractTablesAux larg out)
  | .rangeSubselect _ al, out =>
    match al with
    | some a => if a.isEmpty then out else if out.contains a then out else out ++ [a]
    | none => out
  | _, out => out

def extractTables (nodes : List Node) : List Str :=
  nodes.foldl (fun acc n => extractTablesAux n acc) []

/-! ## The transformer monad

A transformer run (transform.go `transformer`) carries two immutable fields
(tenantIDCol, tenantIDNum), passed below as the parameters `col` and `tid`,
and one mutable flag `isTransformed`, set in exactly one place: addTenantID.
The model threads, instead of the flag, the trace of parameter numbers
emitted by addTenantID ("$%d" writes); the flag is recovered as "the trace is
nonempty".  Each trace entry carries the evident proof that it equals
tenantIDNum (there is a single emission site and it prints tid). -/

abbrev Err := Str

abbrev Inj (tid : Nat) : Type := { n : Nat // n = tid }

abbrev TM (tid : Nat) (α : Type) : Type := Except Err (α × List (Inj tid))

def tmPure {tid : Nat} {α : Type} (a : α) : TM tid α := .ok (a, [])

def tmErr {tid : Nat} {α : Type} (msg : String) : TM tid α := .error (chars msg)

def tmBind {tid : Nat} {α β : Type} (m : TM tid α) (k : α → TM tid β) : TM tid β :=
  match m with
  | .error e => .error e
  | .ok (a, l1) =>
    match k a with
    | .error e => .error e
    | .ok (b, l2) => .ok (b, l1 ++ l2)

/-- errors.Wrap(err, ctx): prefix the context onto the message. -/
def tmWrap {tid : Nat} {α : Type} (ctx : String) (m : TM tid α) : TM tid α :=
  match m with
  | .error e => .error (chars ctx ++ chars ": " ++ e)
  | .ok r => .ok r

def tmOfExcept {tid : Nat} {α : Type} : Except Err α → TM tid α
  | .error e => .error e
  | .ok a => .ok (a, [])

/-- transform.go addTenantID: emit "$tenantIDNum" and record that a tenant-ID
parameter was injected (Go sets isTransformed; the model records the number in
the trace). -/
def addTenantID (tid : Nat) : TM tid Str :=
  .ok (chars "$" ++ natStr tid, [⟨tid, rfl⟩])

/-- Errors raised when the fuel runs out; never happens with ample fuel. -/
def fuelErr {tid : Nat} {α : Type} : TM tid α := tmErr "out of fuel"

/-! ## Generic emission loops (parametric in the per-item emitter) -/

/-- transform.go commaSeparated, generalized over the separator: the Go loop
writes the separator before every item but the first. -/
def sepJoinEmit {tid : Nat} (sep : Str) (f : Node → Env → TM tid (Str × Env)) :
    List Node → Env → TM tid (Str × Env)
  | [], env => tmPure ([], env)
  | x :: xs, env =>
    tmBind (f x env) fun r =>
    tmBind (sepJoinEmit sep f xs r.2) fun r2 =>
    tmPure (r.1 ++ (if xs.isEmpty then [] else sep) ++ r2.1, r2.2)

/-- Loops that write a trailing separator after every item (the VALUES row
loop and the CASE args loop, which uses an empty separator). -/
def trailingEmit {tid : Nat} (sep : Str) (f : Node → Env → TM tid (Str × Env)) :
    List Node → Env → TM tid (Str × Env)
  | [], env => tmPure ([], env)
  | x :: xs, env =>
    tmBind (f x env) fun r =>
    tmBind (trailingEmit sep f xs r.2) fun r2 =>
    tmPure (r.1 ++ sep ++ r2.1, r2.2)

/-- The tenant-predicate loop at the end of transformWhereHelper.  `qual` is
the loop-invariant value of Go's `len(tables) > 1 || onConflict`, hoisted by
the caller; `first` is the Go `first` flag. -/
def tenantPredGo (col : Str) (tid : Nat) (qual : Bool) :
    List Str → Bool → Env → TM tid (Str × Env)
  | [], _, env => tmPure ([], env)
  | tb :: rest, first, env =>
    if envGet env tb = Status.needsTenantID then
      tmBind (addTenantID tid) fun dollar =>
      tmBind (tenantPredGo col tid qual rest false (envSet env tb .hasTenantID)) fun r =>
      tmPure ((if first then [] else chars " AND ") ++
        (if qual then tb ++ chars "." else []) ++ col ++ chars " = " ++ dollar ++ r.1, r.2)
    else
      tenantPredGo col tid qual rest first env

/-! ## Non-recursive emitters -/

/-- The INSERT column-list loop: every item must be a ResTarget, and its name
is emitted followed by ", ".  A ResTarget with no name makes the Go code
dereference a nil pointer (a panic); the model reports it as an error; no
parser-produced INSERT column hits that case. -/
def insertColsEmit : List Node → Except Err Str
  | [] => .ok []
  | c :: rest =>
    match c with
    | .resTarget (some name) _ =>
      (insertColsEmit rest).map (fun r => safestr name ++ chars ", " ++ r)
    | .resTarget none _ => .error (chars "nil Name in INSERT column ResTarget")
    | _ => .error (chars "INSERT INTO (...) item is not a ResTarget")

/-- The ON CONFLICT infer-elements loop: every item must be an IndexElem
(transformIndexElem emits its name), followed by ", ". -/
def inferElemsEmit : List Node → Except Err Str
  | [] => .ok []
  | e :: rest =>
    match e with
    | .indexElem name =>
      (inferElemsEmit rest).map (fun r => safestr name ++ chars ", " ++ r)
    | _ => .error (chars "ON CONFLICT index element is not an IndexElem")

/-- transform.go transformIdent: a one-item name is emitted as is; a two-item
name must have prefix pg_catalog and is uppercased (identifiers are ASCII);
the three substitutions follow. -/
def transformIdent (names : List Node) : Except Err Str :=
  match names with
  | [] => .error (chars "empty identifier node")
  | i0 :: rest =>
    match i0 with
    | .stringNode s0 =>
      match rest with
      | [] => .ok (identRemap s0)
      | [i1] =>
        if s0 = chars "pg_catalog" then
          match i1 with
          | .stringNode s1 => .ok (identRemap (s1.map Char.toUpper))
          | _ => .error (chars "identifier item 1 is not a String")
        else .error (chars "2-item identifier prefix is not pg_catalog")
      | _ => .error (chars "identifier has too many items, want 1 or 2")
    | _ => .error (chars "identifier item 0 is not a String")
where
  identRemap (s : Str) : Str :=
    if s = chars "BOOL" then chars "BOOLEAN"
    else if s = chars "INT8" then chars "BIGINT"
    else if s = chars "TIMESTAMPTZ" then chars "TIMESTAMP WITH TIME ZONE"
    else s

/-- transform.go transformTypeName: the identifier, then a "[]" suffix when
the single array bound is the Integer -1. -/
def transformTypeName (names : List Node) (bounds : List Node) : Except Err Str :=
  match transformIdent names with
  | .error e => .error (chars "transformTypeName" ++ chars ": " ++ e)
  | .ok id =>
    match bounds with
    | [] => .ok id
    | [b] =>
      match b with
      | .integerNode i =>
        if i = -1 then .ok (id ++ chars "[]")
        else .error (chars "TypeName array bounds is not -1")
      | _ => .error (chars "TypeName array bounds item is not an Integer")
    | _ => .error (chars "too many items in TypeName array bounds, want 0 or 1")

/-- transform.go transformConst: the Go type switch over the A_Const value
has no default case, so any value kind other than Integer, Float, String and
Null is emitted as nothing (and no error is raised). -/
def transformConst (val : Node) : Str :=
  match val with
  | .integerNode i => intStr i
  | .floatNode s => s
  | .stringNode s => squoteChar :: (escape s ++ [squoteChar])
  | .nullNode => chars "NULL"
  | _ => []

/-- transform.go specialCaseBoolLiteral: a cast of the string constant
literal t or f to (pg_catalog, bool) emits the bare literal. -/
def specialCaseBoolLiteral (arg : Node) (tnNames : List Node) : Option Str :=
  match arg with
  | .aConst (.stringNode s) =>
    match tnNames with
    | [.stringNode p, .stringNode b] =>
      if p = chars "pg_catalog" && b = chars "bool" then
        if s = chars "t" then some (chars "true")
        else if s = chars "f" then some (chars "false")
        else none
      else none
    | _ => none
  | _ => none

/-- The star-detection prologue of transformSelect: a single target that is
not a ResTarget is an error; a single ResTarget whose value is a ColumnRef
with exactly one A_Star field is the star case. -/
def selectStarCheck : List Node → Except Err Bool
  | [t] =>
    match t with
    | .resTarget _ val =>
      match val with
      | some (.columnRef [.aStar]) => .ok true
      | _ => .ok false
    | _ => .error (chars "SELECT target item is not a ResTarget")
  | _ => .ok false

/-- The operator-name extraction shared by the AEXPR_OP and AEXPR_OP_ANY
cases: exactly one name item, which must be a String. -/
def aexprOpName (name : List Node) : Except Err Str :=
  match name with
  | [n0] =>
    match n0 with
    | .stringNode s => .ok s
    | _ => .error (chars "name for A_Expr operator is not a Str")
  | _ => .error (chars "wrong number of names for A_Expr operator, want 1")

/-- The range-function column-alias closure: each column name must be a
String and is emitted through safestr. -/
def rangeFuncColname {tid : Nat} (colNode : Node) (env : Env) : TM tid (Str × Env) :=
  match colNode with
  | .stringNode s => tmPure (safestr s, env)
  | _ => tmErr "range function alias is not a String"

/-! ## The rewriter

Each function mirrors its transform.go namesake.  The io.Writer argument
becomes the Str component of the result; the mutated environ becomes the Env
component; `col` and `tid` are the transformer's tenantIDCol and tenantIDNum
fields.  On an error the Go functions leave partial text in the caller's
buffer, which every caller discards; the model short-circuits instead. -/

/-- The record of the transformer functions at one fuel level: a field of
the record for fuel n+1 routes every recursive call through the record for
fuel n, so each transform.go call consumes one unit of fuel. -/
structure TransformFns (tid : Nat) : Type where
  transformStmt : Node → TM tid Str
  transformInsert : Str → Option Str → List Node → Option Node → Option Node → List Node → Option Node → Env → TM tid (Str × Env)
  transformInsertSuffix : Option Node → List Node → Env → TM tid (Str × Env)
  transformSelect : List Node → List Node → List Node → Option Node → List Node → Option Node → List Node → Option Node → Option Node → Env → Bool → TM tid (Str × Env)
  transformUpdate : Str → Option Str → List Node → List Node → Option Node → List Node → Option Node → Env → TM tid (Str × Env)
  transformDelete : Str → Option Str → List Node → Option Node → Env → TM tid (Str × Env)
  handleCTE : Option Node → Env → TM tid (Str × List Str × Env)
  cteLoop : List Node → Bool → Env → TM tid (Str × List Str × Env)
  transformWhere : Option Node → Env → Bool → TM tid (Str × Env)
  transformWhereHelper : Option Node → Env → Bool → List Str → TM tid (Str × Env)
  transformNode : Node → Env → TM tid (Str × Env)
  transformNodeOpt : Option Node → Env → TM tid (Str × Env)
  transformAtom : Node → Env → TM tid (Str × Env)
  transformNodeSafe : Node → Env → TM tid (Str × Env)
  transformSelectCol : Node → Env → TM tid (Str × Env)
  transformNodeHelper : Node → Env → TM tid (Str × Bool × Env)
  transformBoolExpr : BoolOpKind → List Node → Env → TM tid (Str × Env)
  transformBoolSubexpr : Node → Env → TM tid (Str × Env)
  transformSubLink : SubLinkKind → Option Node → Node → Env → TM tid (Str × Env)
  transformSortByItem : Node → Env → TM tid (Str × Env)

/-- All fields fail: the fuel has run out. -/
def failFns (tid : Nat) : TransformFns tid where
  transformStmt := fun _ => fuelErr
  transformInsert := fun _ _ _ _ _ _ _ _ => fuelErr
  transformInsertSuffix := fun _ _ _ => fuelErr
  transformSelect := fun _ _ _ _ _ _ _ _ _ _ _ => fuelErr
  transformUpdate := fun _ _ _ _ _ _ _ _ => fuelErr
  transformDelete := fun _ _ _ _ _ => fuelErr
  handleCTE := fun _ _ => fuelErr
  cteLoop := fun _ _ _ => fuelErr
  transformWhere := fun _ _ _ => fuelErr
  transformWhereHelper := fun _ _ _ _ => fuelErr
  transformNode := fun _ _ => fuelErr
  transformNodeOpt := fun _ _ => fuelErr
  transformAtom := fun _ _ => fuelErr
  transformNodeSafe := fun _ _ => fuelErr
  transformSelectCol := fun _ _ => fuelErr
  transformNodeHelper := fun _ _ => fuelErr
  transformBoolExpr := fun _ _ _ => fuelErr
  transformBoolSubexpr := fun _ _ => fuelErr
  transformSubLink := fun _ _ _ _ => fuelErr
  transformSortByItem := fun _ _ => fuelErr

/-- One step of the transformer: the bodies of the transform.go functions,
with every recursive call routed through the previous fuel level. -/
def transformStep (col : Str) (tid : Nat) (rec : TransformFns tid) :
    TransformFns tid where
  transformStmt := fun stmt =>
    match stmt with
    | .rawStmt s => rec.transformStmt s
    | .insertStmt rn al cols sel oc ret wc =>
      tmBind (rec.transformInsert rn al cols sel oc ret wc newEnv) fun r =>
      tmPure r.1
    | .selectStmt d t f w g h so li _v wc =>
      tmBind (rec.transformSelect d t f w g h so li wc newEnv false) fun r =>
      tmPure r.1
    | .updateStmt rn al tg fr w ret wc =>
      tmBind (rec.transformUpdate rn al tg fr w ret wc newEnv) fun r =>
      tmPure r.1
    | .deleteStmt rn al us w =>
      tmBind (rec.transformDelete rn al us w newEnv) fun r =>
      tmPure r.1
    | _ => tmErr "unknown statement type"
  transformInsert := fun relname al cols sel onConf returning withCl env =>
    tmBind (tmWrap "transformInsert" (rec.handleCTE withCl env)) fun rc =>
    let cteNames := rc.2.1
    let env1 := match al with
      | some a => envSet rc.2.2 a .needsTenantID
      | none => envSet rc.2.2 relname .needsTenantID
    let aliasOut : Str := match al with
      | some a => chars "AS " ++ safestr a ++ chars " "
      | none => []
    tmBind (tmOfExcept (insertColsEmit cols)) fun colsOut =>
    let head := rc.1 ++ chars "INSERT INTO " ++ safestr relname ++ chars " " ++
      aliasOut ++ chars "(" ++ colsOut ++ col ++ chars ") "
    match sel with
    | some (.selectStmt d t f w g h so li values wc) =>
      match values with
      | [] =>
        let subEnv := cteNames.foldl (fun e n => envSet e n .isCTE) newEnv
        tmBind (tmWrap "transformInsert"
            (rec.transformSelect d t f w g h so li wc subEnv true)) fun rs =>
        tmBind (rec.transformInsertSuffix onConf returning env1) fun rx =>
        tmPure (head ++ rs.1 ++ rx.1, rx.2)
      | [vrow] =>
        tmBind (tmWrap "transformInsert"
            (trailingEmit (chars ", ") (rec.transformNode) vrow env1)) fun rv =>
        tmBind (addTenantID tid) fun dollar =>
        tmBind (rec.transformInsertSuffix onConf returning rv.2) fun rx =>
        tmPure (head ++ chars "VALUES (" ++ rv.1 ++ dollar ++ chars ")" ++ rx.1, rx.2)
      | _ => tmErr "SELECT statement has more than 1 item in ValuesLists, want 0 or 1"
    | _ => tmErr "INSERT select statement is not a SelectStmt"
  -- The straight-line tail of transformInsert (ON CONFLICT clause, then
  -- RETURNING), factored out so both VALUES and SELECT branches share it.
  transformInsertSuffix := fun onConf returning env =>
    tmBind (match onConf with
      | none => tmPure (([] : Str), env)
      | some ocn =>
        match ocn with
        | .onConflictClause action infer targets whereC =>
          if action = OnConflictAction.onconflictNone then tmPure (([] : Str), env)
          else
            tmBind (tmOfExcept (match infer with
              | none => .ok ([] : Str)
              | some (.inferClause elems) =>
                (inferElemsEmit elems).map
                  (fun s => chars "(" ++ s ++ col ++ chars ") ")
              | some _ => .error (chars "malformed Infer clause"))) fun sInf =>
            let pre := chars " ON CONFLICT " ++ sInf ++ chars "DO "
            if action = OnConflictAction.onconflictNothing then
              tmPure (pre ++ chars "NOTHING", env)
            else if action = OnConflictAction.onconflictUpdate then
              tmBind (tmWrap "transformInsert"
                  (sepJoinEmit (chars ", ") (rec.transformNode) targets env)) fun rt =>
              match whereC with
              | none => tmPure (pre ++ chars "UPDATE SET " ++ rt.1, rt.2)
              | some w =>
                tmBind (tmWrap "transformInsert"
                    (rec.transformWhere (some w) rt.2 true)) fun rw =>
                tmPure (pre ++ chars "UPDATE SET " ++ rt.1 ++ rw.1, rw.2)
            else tmPure (pre, env)
        | _ => tmErr "malformed OnConflictClause") fun roc =>
    match returning with
    | [] => tmPure (roc.1, roc.2)
    | _ =>
      tmBind (tmWrap "transformInsert"
          (sepJoinEmit (chars ", ") (rec.transformNode) returning roc.2)) fun rr =>
      tmPure (roc.1 ++ chars " RETURNING " ++ rr.1, rr.2)
  transformSelect := fun distinct targets froms whereCl group having sortCl limitCount withCl env forInsert =>
    tmBind (tmWrap "transformSelect" (rec.handleCTE withCl env)) fun rc =>
    let env1 := rc.2.2
    if !distinct.isEmpty then tmErr "SELECT DISTINCT not implemented"
    else
      tmBind (tmOfExcept (selectStarCheck targets)) fun star =>
      tmBind (if star then
          (if forInsert then tmErr "cannot handle INSERT ... SELECT *"
           else tmPure ((chars "*", env1)))
        else
          tmBind (tmWrap "transformSelect"
              (sepJoinEmit (chars ", ") (rec.transformSelectCol) targets env1)) fun rt =>
          if forInsert then
            tmBind (addTenantID tid) fun dollar =>
            tmPure (rt.1 ++ (if targets.isEmpty then [] else chars ", ") ++ dollar, rt.2)
          else tmPure (rt.1, rt.2)) fun rtg =>
      tmBind (match froms with
        | [] => tmPure (([] : Str), rtg.2)
        | _ =>
          tmBind (tmWrap "transformSelect"
              (sepJoinEmit (chars ", ") (rec.transformNode) froms rtg.2)) fun rf =>
          tmPure (chars " FROM " ++ rf.1, rf.2)) fun rfr =>
      tmBind (tmWrap "transformSelect" (rec.transformWhere whereCl rfr.2 false)) fun rw =>
      tmBind (match group with
        | [] => tmPure (([] : Str), rw.2)
        | _ =>
          tmBind (tmWrap "transformSelect"
              (sepJoinEmit (chars ", ") (rec.transformNode) group rw.2)) fun rg =>
          tmPure (chars " GROUP BY " ++ rg.1, rg.2)) fun rgr =>
      tmBind (match having with
        | none => tmPure (([] : Str), rgr.2)
        | some hv =>
          tmBind (tmWrap "transformSelect" (rec.transformNode hv rgr.2)) fun rh =>
          tmPure (chars " HAVING " ++ rh.1, rh.2)) fun rhv =>
      tmBind (match sortCl with
        | [] => tmPure (([] : Str), rhv.2)
        | _ =>
          tmBind (tmWrap "transformSelect"
              (sepJoinEmit (chars ", ") (rec.transformSortByItem) sortCl rhv.2)) fun rs =>
          tmPure (chars " ORDER BY " ++ rs.1, rs.2)) fun rso =>
      tmBind (match limitCount with
        | none => tmPure (([] : Str), rso.2)
        | some lc =>
          tmBind (tmWrap "transformSelect" (rec.transformNode lc rso.2)) fun rl =>
          tmPure (chars " LIMIT " ++ rl.1, rl.2)) fun rli =>
      tmPure (rc.1 ++ chars "SELECT " ++ rtg.1 ++ rfr.1 ++ rw.1 ++ rgr.1 ++
        rhv.1 ++ rso.1 ++ rli.1, rli.2)
  transformUpdate := fun relname al targets froms whereCl returning withCl env =>
    tmBind (tmWrap "transformUpdate" (rec.handleCTE withCl env)) fun rc =>
    tmBind (tmWrap "transformUpdate"
        (rec.transformNode (.rangeVar relname al) rc.2.2)) fun r1 =>
    tmBind (tmWrap "transformUpdate"
        (sepJoinEmit (chars ", ") (rec.transformNode) targets r1.2)) fun r2 =>
    tmBind (match froms with
      | [] => tmPure (([] : Str), r2.2)
      | _ =>
        tmBind (tmWrap "transformUpdate"
            (sepJoinEmit (chars ", ") (rec.transformNode) froms r2.2)) fun rf =>
        tmPure (chars " FROM " ++ rf.1, rf.2)) fun r3 =>
    let head := rc.1 ++ chars "UPDATE " ++ r1.1 ++ chars " SET " ++ r2.1 ++ r3.1
    match whereCl with
    | none =>
      -- Go returns right after the fabricated WHERE: an UPDATE with no WHERE
      -- never reaches the RETURNING emission below.
      tmBind (addTenantID tid) fun dollar =>
      tmPure (head ++ chars " WHERE " ++ col ++ chars " = " ++ dollar, r3.2)
    | some w =>
      tmBind (tmWrap "transformUpdate" (rec.transformWhere (some w) r3.2 false)) fun rw =>
      match returning with
      | [] => tmPure (head ++ rw.1, rw.2)
      | _ =>
        tmBind (tmWrap "transformUpdate"
            (sepJoinEmit (chars ", ") (rec.transformNode) returning rw.2)) fun rr =>
        tmPure (head ++ rw.1 ++ chars " RETURNING " ++ rr.1, rr.2)
  transformDelete := fun relname al usingCl whereCl env =>
    tmBind (tmWrap "transformDelete"
        (rec.transformNode (.rangeVar relname al) env)) fun r1 =>
    tmBind (match usingCl with
      | [] => tmPure (([] : Str), r1.2)
      | _ =>
        tmBind (tmWrap "transformDelete"
            (sepJoinEmit (chars ", ") (rec.transformNode) usingCl r1.2)) fun ru =>
        tmPure (chars " USING " ++ ru.1, ru.2)) fun r2 =>
    tmBind (rec.transformWhere whereCl r2.2 false) fun rw =>
    tmPure (chars "DELETE FROM " ++ r1.1 ++ r2.1 ++ rw.1, rw.2)
  handleCTE := fun withCl env =>
    match withCl with
    | none => tmPure ([], [], env)
    | some wc =>
      match wc with
      | .withClause recursive ctes =>
        tmBind (rec.cteLoop ctes true env) fun r =>
        tmPure (chars "WITH " ++ (if recursive then chars "RECURSIVE " else []) ++
          r.1 ++ chars " ", r.2.1, r.2.2)
      | _ => tmErr "malformed WithClause"
  -- The body of handleCTE's loop over withClause.Ctes.Items.
  cteLoop := fun items first env =>
    match items with
    | [] => tmPure ([], [], env)
    | item :: rest =>
      let sep : Str := if first then [] else chars ", "
      match item with
      | .commonTableExpr cname cquery =>
        let env1 := envSet env cname .isCTE
        tmBind (match cquery with
          | .selectStmt d t f w g h so li _v wcl =>
            tmBind (tmWrap "handleCTE"
                (rec.transformSelect d t f w g h so li wcl newEnv false)) fun rs =>
            tmPure (rs.1, propagateCTEs rs.2 env1)
          | .insertStmt rn ial icols isel ioc iret iwc =>
            match isel with
            | none => tmErr "Ctequery has no SELECT"
            | some _ =>
              tmBind (tmWrap "handleCTE"
                  (rec.transformInsert rn ial icols isel ioc iret iwc newEnv)) fun ri =>
              tmPure (ri.1, propagateCTEs ri.2 env1)
          | _ => tmErr "Ctequery is not SELECT or INSERT ... SELECT") fun rb =>
        tmBind (rec.cteLoop rest false rb.2) fun rr =>
        tmPure (sep ++ safestr cname ++ chars " AS (" ++ rb.1 ++ chars ")" ++ rr.1,
          cname :: rr.2.1, rr.2.2)
      | _ => tmErr "Ctequery item is not a CommonTableExpr"
  transformWhere := fun whereCl env onConflict =>
    let env1 := promoteFirstLJT env
    if whereCl.isSome || env1.any (fun kv => kv.2 = Status.needsTenantID) then
      tmBind (rec.transformWhereHelper whereCl env1 onConflict
          (sortStrs (env1.map Prod.fst))) fun r =>
      tmPure (chars " WHERE " ++ r.1, r.2)
    else tmPure ([], env1)
  transformWhereHelper := fun whereCl env onConflict tables =>
    if tables.any (fun tb => envGet env tb = Status.needsTenantID) then
      tmBind (match whereCl with
        | none => tmPure (([] : Str), env)
        | some w =>
          match w with
          | .boolExpr op args =>
            if op ≠ BoolOpKind.andExpr then
              tmBind (tmWrap "transformWhere" (rec.transformBoolExpr op args env)) fun rb =>
              tmPure (chars "(" ++ rb.1 ++ chars ")" ++ chars " AND ", rb.2)
            else
              tmBind (tmWrap "transformWhere" (rec.transformNode w env)) fun rn =>
              tmPure (rn.1 ++ chars " AND ", rn.2)
          | _ =>
            tmBind (tmWrap "transformWhere" (rec.transformNode w env)) fun rn =>
            tmPure (rn.1 ++ chars " AND ", rn.2)) fun rw =>
      tmBind (tenantPredGo col tid (decide (tables.length > 1) || onConflict)
          tables true rw.2) fun rp =>
      tmPure (rw.1 ++ rp.1, rp.2)
    else
      match whereCl with
      | some w => rec.transformNode w env
      | none => tmErr "node type <nil> not handled"
  transformNode := fun node env =>
    tmBind (rec.transformNodeHelper node env) fun r =>
    tmPure (r.1, r.2.2)
  -- transform.go's call sites that pass a possibly-nil node (A_Expr operands,
  -- CASE default, SubLink test expression): a nil interface falls through to the
  -- switch default.
  transformNodeOpt := fun node env =>
    match node with
    | some n => rec.transformNode n env
    | none => tmErr "node type <nil> not handled"
  transformAtom := fun node env =>
    tmBind (rec.transformNodeHelper node env) fun r =>
    if r.2.1 then tmPure (r.1, r.2.2)
    else tmPure (chars "(" ++ r.1 ++ chars ")", r.2.2)
  transformNodeSafe := fun node env =>
    match node with
    | .stringNode s => tmPure (safestr s, env)
    | _ => rec.transformNode node env
  transformSelectCol := fun node env =>
    match node with
    | .resTarget rname rval =>
      tmBind (tmWrap "transformSelectCol" (rec.transformNodeOpt rval env)) fun rv =>
      match rname with
      | some n => tmPure (rv.1 ++ chars " AS " ++ safestr n, rv.2)
      | none => tmPure (rv.1, rv.2)
    | _ => tmErr "transformSelectCol: not a ResTarget"
  -- Returns (text, (isAtomic, env)).
  transformNodeHelper := fun node env =>
    match node with
    | .rangeSubselect sub ral =>
      match sub with
      | .selectStmt d t f w g h so li _v wc =>
        tmBind (tmWrap "transformNode (RangeSubselect)"
            (rec.transformSelect d t f w g h so li wc newEnv false)) fun rs =>
        (match ral with
         | some a =>
           if a.isEmpty then tmPure (rs.1, false, env)
           else tmPure (chars "(" ++ rs.1 ++ chars ") AS " ++ a, false,
             envSet env a .isCTE)
         | none => tmPure (rs.1, false, env))
      | _ => tmErr "RangeSubselect subquery is not a SelectStmt"
    | .paramRef n => tmPure (chars "$" ++ natStr n, true, env)
    | .typeCast arg tnNames tnBounds =>
      match specialCaseBoolLiteral arg tnNames with
      | some s => tmPure (s, true, env)
      | none =>
        tmBind (tmWrap "transformNode (TypeCast)" (rec.transformAtom arg env)) fun ra =>
        tmBind (tmOfExcept (transformTypeName tnNames tnBounds)) fun tn =>
        tmPure (ra.1 ++ chars "::" ++ tn, false, ra.2)
    | .resTarget rname rval =>
      let nameOut : Str := match rname with | some n => safestr n | none => []
      let eqOut : Str := if rname.isSome && rval.isSome then chars " = " else []
      tmBind (match rval with
        | some v =>
          tmBind (tmWrap "transformNode (ResTarget)" (rec.transformNode v env)) fun rv =>
          tmPure (rv.1, rv.2)
        | none => tmPure (([] : Str), env)) fun rv =>
      tmPure (nameOut ++ eqOut ++ rv.1, rval.isNone, rv.2)
    | .columnRef fields =>
      match fields with
      | [] => tmErr "no fields in ColumnRef node"
      | f0 :: rest =>
        tmBind (tmWrap "transformNode (ColumnRef)" (rec.transformNodeSafe f0 env)) fun r0 =>
        match rest with
        | [] => tmPure (r0.1, true, r0.2)
        | f1 :: _ =>
          match f1 with
          | .aStar => tmPure (r0.1 ++ chars ".*", false, r0.2)
          | _ =>
            tmBind (tmWrap "transformNode (ColumnRef)"
                (rec.transformNodeSafe f1 r0.2)) fun r1 =>
            tmPure (r0.1 ++ chars "." ++ r1.1, false, r1.2)
    | .stringNode s => tmPure (s, true, env)
    | .aExpr kind name lexpr rexpr =>
      match kind with
      | .aexprOp =>
        tmBind (tmWrap "transformNode (A_Expr/OP)"
            (rec.transformNodeOpt lexpr env)) fun rl =>
        tmBind (tmOfExcept (aexprOpName name)) fun opStr =>
        let opOut := if opStr = chars "->" || opStr = chars "->>" then opStr
          else chars " " ++ opStr ++ chars " "
        tmBind (tmWrap "transformNode (A_Expr/OP)"
            (rec.transformNodeOpt rexpr rl.2)) fun rr =>
        tmPure (rl.1 ++ opOut ++ rr.1, false, rr.2)
      | .aexprOpAny =>
        tmBind (tmWrap "transformNode (A_Expr/OP_ANY"
            (rec.transformNodeOpt lexpr env)) fun rl =>
        tmBind (tmOfExcept (aexprOpName name)) fun opStr =>
        tmBind (tmWrap "transformNode (A_Expr/OP_ANY"
            (rec.transformNodeOpt rexpr rl.2)) fun rr =>
        tmPure (rl.1 ++ chars " " ++ opStr ++ chars " ANY(" ++ rr.1 ++ chars ")",
          false, rr.2)
      | .aexprNullif =>
        tmBind (tmWrap "transformNode(A_Expr/NULLIF left subexp)"
            (rec.transformNodeOpt lexpr env)) fun rl =>
        tmBind (tmWrap "transformNode(A_Expr/NULLIF right subexp)"
            (rec.transformNodeOpt rexpr rl.2)) fun rr =>
        tmPure (chars "NULLIF(" ++ rl.1 ++ chars ", " ++ rr.1 ++ chars ")",
          false, rr.2)
      | .aexprOther _ => tmErr "A_Expr subtype not implemented"
    | .funcCall fname args aggStar =>
      tmBind (tmWrap "transformNode (FuncCall)" (tmOfExcept (transformIdent fname))) fun fid =>
      tmBind (if args.isEmpty && aggStar then tmPure ((chars "*", env))
        else tmWrap "transformNode (FuncCall)"
          (sepJoinEmit (chars ", ") (rec.transformNode) args env)) fun ra =>
      tmPure (fid ++ chars "(" ++ ra.1 ++ chars ")", true, ra.2)
    | .boolExpr op args =>
      tmBind (rec.transformBoolExpr op args env) fun r =>
      tmPure (r.1, false, r.2)
    | .subLink ty te sub =>
      tmBind (rec.transformSubLink ty te sub env) fun r =>
      tmPure (r.1, false, r.2)
    | .aConst v => tmPure (transformConst v, true, env)
    | .rangeVar rn ral =>
      match ral with
      | some a =>
        let env1 := if envGet env a = Status.noStatus then
            envSet env a (if envGet env rn = Status.noStatus then .needsTenantID
              else envGet env rn)
          else env
        tmPure (safestr rn ++ chars " " ++ safestr a, false, env1)
      | none =>
        let env1 := if envGet env rn = Status.noStatus then
            envSet env rn .needsTenantID
          else env
        tmPure (safestr rn, true, env1)
    | .coalesceExpr args =>
      tmBind (tmWrap "transformNode (CoalesceExpr)"
          (sepJoinEmit (chars ", ") (rec.transformNode) args env)) fun ra =>
      tmPure (chars "COALESCE(" ++ ra.1 ++ chars ")", true, ra.2)
    | .setToDefault => tmPure (chars "DEFAULT", true, env)
    | .nullTest arg ty =>
      tmBind (tmWrap "transformNode (NullTest)" (rec.transformNode arg env)) fun ra =>
      let suffix := match ty with
        | .isNullTest => chars " IS NULL"
        | .isNotNullTest => chars " IS NOT NULL"
      tmPure (ra.1 ++ suffix, false, ra.2)
    | .caseExpr carg cargs cdef =>
      match carg with
      | some _ => tmErr "CASE testexpr WHEN ... not implemented"
      | none =>
        tmBind (tmWrap "transformNode (CaseExpr Args)"
            (trailingEmit [] (rec.transformNode) cargs env)) fun ra =>
        tmBind (tmWrap "transformNode (CaseExpr Defresult)"
            (rec.transformNodeOpt cdef ra.2)) fun rd =>
        tmPure (chars "CASE " ++ ra.1 ++ chars " ELSE " ++ rd.1 ++ chars " END",
          true, rd.2)
    | .caseWhen ce cr =>
      tmBind (tmWrap "transformNode (CaseWhen)" (rec.transformNode ce env)) fun re =>
      tmBind (tmWrap "transformNode (CaseWhen)" (rec.transformNode cr re.2)) fun rr =>
      tmPure (chars "WHEN " ++ re.1 ++ chars " THEN " ++ rr.1, true, rr.2)
    | .joinExpr jt larg rarg quals =>
      let env0 := if jt = JoinKind.joinLeft then
          match larg with
          | .rangeVar rn ral =>
            maybeSetIsLeftJoinTable env (match ral with | some a => a | none => rn)
          | _ => env
        else env
      tmBind (tmWrap "transformNode (JoinExpr)" (rec.transformNode larg env0)) fun rl =>
      tmBind (match jt with
        | .joinInner => tmPure (chars " INNER JOIN ")
        | .joinLeft => tmPure (chars " LEFT JOIN ")
        | .joinOther _ => tmErr "JoinExpr subtype not implemented") fun kw =>
      tmBind (tmWrap "transformNode (JoinExpr)" (rec.transformNode rarg rl.2)) fun rr =>
      tmBind (match quals with
        | none => tmPure (([] : Str), rr.2)
        | some q =>
          tmBind (tmWrap "transformNode (JoinExpr)"
              (rec.transformWhereHelper (some q) rr.2 false
                (sortStrs (extractTables [larg, rarg])))) fun rq =>
          tmPure (chars " ON " ++ rq.1, rq.2)) fun rq =>
      tmPure (rl.1 ++ kw ++ rr.1 ++ rq.1, false, rq.2)
    | .rangeFunction fns aliasName aliasCols =>
      match fns with
      | [f0] =>
        match f0 with
        | .listNode fitems =>
          match fitems with
          | [] => tmErr "empty subitems list in Functions.Items[0]"
          | i0 :: _ =>
            tmBind (tmWrap "transformNode (RangeFunction)"
                (rec.transformNode i0 env)) fun r0 =>
            match aliasName with
            | some a =>
              tmBind (tmWrap "transformNode (RangeFunction)"
                  (sepJoinEmit (chars ", ") rangeFuncColname aliasCols r0.2)) fun rcn =>
              tmPure (r0.1 ++ chars " AS " ++ safestr a ++ chars "(" ++ rcn.1 ++ chars ")",
                false, rcn.2)
            | none => tmPure (r0.1, false, r0.2)
        | _ => tmErr "Functions.Items[0] for RangeFunction node is not a List"
      | _ => tmErr "wrong number of functions for RangeFunction node, want 1"
    | .rowExpr args =>
      tmBind (tmWrap "transformNode (RowExpr)"
          (sepJoinEmit (chars ", ") (rec.transformNode) args env)) fun ra =>
      tmPure (chars "(" ++ ra.1 ++ chars ")", true, ra.2)
    | .sqlValueFunction op =>
      match op with
      | .svfCurrentTimestamp => tmPure (chars "NOW()", true, env)
      | .svfOther _ => tmErr "SQLValueFunction not handled"
    | _ => tmErr "node type not handled"
  transformBoolExpr := fun op args env =>
    match op with
    | .andExpr =>
      tmWrap "transformBoolExpr (AND)"
        (sepJoinEmit (chars " AND ") (rec.transformBoolSubexpr) args env)
    | .orExpr =>
      tmWrap "transformBoolExpr (OR)"
        (sepJoinEmit (chars " OR ") (rec.transformBoolSubexpr) args env)
    | .notExpr =>
      match args with
      | [a] =>
        tmBind (rec.transformBoolSubexpr a env) fun r =>
        tmPure (chars "NOT " ++ r.1, r.2)
      | _ => tmErr "NOT expression has wrong number of subexpressions, want 1"
  transformBoolSubexpr := fun expr env =>
    match expr with
    | .boolExpr op args =>
      tmBind (tmWrap "transformBoolSubexpr" (rec.transformBoolExpr op args env)) fun r =>
      tmPure (chars "(" ++ r.1 ++ chars ")", r.2)
    | _ => rec.transformNode expr env
  transformSubLink := fun ty testexpr subselect env =>
    match ty with
    | .existsSublink =>
      match subselect with
      | .selectStmt d t f w g h so li _v wc =>
        tmBind (tmWrap "transformSubLink (EXISTS)"
            (rec.transformSelect d t f w g h so li wc newEnv false)) fun rs =>
        tmPure (chars "EXISTS (" ++ rs.1 ++ chars ")", env)
      | _ => tmErr "EXISTS subselect is not a SelectStmt"
    | .anySublink =>
      tmBind (tmWrap "transformSubLink (ANY)"
          (rec.transformNodeOpt testexpr env)) fun rt =>
      match subselect with
      | .selectStmt d t f w g h so li _v wc =>
        tmBind (tmWrap "transformSubLink (ANY)"
            (rec.transformSelect d t f w g h so li wc newEnv false)) fun rs =>
        tmPure (rt.1 ++ chars " IN (" ++ rs.1 ++ chars ")", rt.2)
      | _ => tmErr "EXISTS subselect is not a SelectStmt"
    | .otherSublink _ => tmErr "SubLink type not implemented"
  -- The ORDER BY closure inside transformSelect.
  transformSortByItem := fun item env =>
    match item with
    | .sortBy n dir =>
      tmBind (rec.transformNode n env) fun r =>
      let dirOut : Str := match dir with
        | .sortbyAsc => chars " ASC"
        | .sortbyDesc => chars " DESC"
        | _ => []
      tmPure (r.1 ++ dirOut, r.2)
    | _ => tmErr "SORT BY clause is not a SortBy"

/-- The transformer at a given fuel level, by plain Nat recursion. -/
def transformFns (col : Str) (tid : Nat) (fuel : Nat) : TransformFns tid :=
  Nat.rec (failFns tid) (fun _ ih => transformStep col tid ih) fuel

def transformStmt (fuel : Nat) (col : Str) (tid : Nat) (stmt : Node) :
    TM tid Str :=
  (transformFns col tid fuel).transformStmt stmt

def transformInsert (fuel : Nat) (col : Str) (tid : Nat) (relname : Str) (al : Option Str) (cols : List Node) (sel : Option Node) (onConf : Option Node) (returning : List Node) (withCl : Option Node) (env : Env) :
    TM tid (Str × Env) :=
  (transformFns col tid fuel).transformInsert relname al cols sel onConf returning withCl env

def transformInsertSuffix (fuel : Nat) (col : Str) (tid : Nat) (onConf : Option Node) (returning : List Node) (env : Env) :
    TM tid (Str × Env) :=
  (transformFns col tid fuel).transformInsertSuffix onConf returning env

def transformSelect (fuel : Nat) (col : Str) (tid : Nat) (distinct : List Node) (targets : List Node) (froms : List Node) (whereCl : Option Node) (group : List Node) (having : Option Node) (sortCl : List Node) (limitCount : Option Node) (withCl : Option Node) (env : Env) (forInsert : Bool) :
    TM tid (Str × Env) :=
  (transformFns col tid fuel).transformSelect distinct targets froms whereCl group having sortCl limitCount withCl env forInsert

def transformUpdate (fuel : Nat) (col : Str) (tid : Nat) (relname : Str) (al : Option Str) (targets : List Node) (froms : List Node) (whereCl : Option Node) (returning : List Node) (withCl : Option Node) (env : Env) :
    TM tid (Str × Env) :=
  (transformFns col tid fuel).transformUpdate relname al targets froms whereCl returning withCl env

def transformDelete (fuel : Nat) (col : Str) (tid : Nat) (relname : Str) (al : Option Str) (usingCl : List Node) (whereCl : Option Node) (env : Env) :
    TM tid (Str × Env) :=
  (transformFns col tid fuel).transformDelete relname al usingCl whereCl env

def handleCTE (fuel : Nat) (col : Str) (tid : Nat) (withCl : Option Node) (env : Env) :
    TM tid (Str × List Str × Env) :=
  (transformFns col tid fuel).handleCTE withCl env

def cteLoop (fuel : Nat) (col : Str) (tid : Nat) (items : List Node) (first : Bool) (env : Env) :
    TM tid (Str × List Str × Env) :=
  (transformFns col tid fuel).cteLoop items first env

def transformWhere (fuel : Nat) (col : Str) (tid : Nat) (whereCl : Option Node) (env : Env) (onConflict : Bool) :
    TM tid (Str × Env) :=
  (transformFns col tid fuel).transformWhere whereCl env onConflict

def transformWhereHelper (fuel : Nat) (col : Str) (tid : Nat) (whereCl : Option Node) (env : Env) (onConflict : Bool) (tables : List Str) :
    TM tid (Str × Env) :=
  (transformFns col tid fuel).transformWhereHelper whereCl env onConflict tables

def transformNode (fuel : Nat) (col : Str) (tid : Nat) (node : Node) (env : Env) :
    TM tid (Str × Env) :=
  (transformFns col tid fuel).transformNode node env

def transformNodeOpt (fuel : Nat) (col : Str) (tid : Nat) (node : Option Node) (env : Env) :
    TM tid (Str × Env) :=
  (transformFns col tid fuel).transformNodeOpt node env

def transformAtom (fuel : Nat) (col : Str) (tid : Nat) (node : Node) (env : Env) :
    TM tid (Str × Env) :=
  (transformFns col tid fuel).transformAtom node env

def transformNodeSafe (fuel : Nat) (col : Str) (tid : Nat) (node : Node) (env : Env) :
    TM tid (Str × Env) :=
  (transformFns col tid fuel).transformNodeSafe node env

def transformSelectCol (fuel : Nat) (col : Str) (tid : Nat) (node : Node) (env : Env) :
    TM tid (Str × Env) :=
  (transformFns col tid fuel).transformSelectCol node env

def transformNodeHelper (fuel : Nat) (col : Str) (tid : Nat) (node : Node) (env : Env) :
    TM tid (Str × Bool × Env) :=
  (transformFns col tid fuel).transformNodeHelper node env

def transformBoolExpr (fuel : Nat) (col : Str) (tid : Nat) (op : BoolOpKind) (args : List Node) (env : Env) :
    TM tid (Str × Env) :=
  (transformFns col tid fuel).transformBoolExpr op args env

def transformBoolSubexpr (fuel : Nat) (col : Str) (tid : Nat) (expr : Node) (env : Env) :
    TM tid (Str × Env) :=
  (transformFns col tid fuel).transformBoolSubexpr expr env

def transformSubLink (fuel : Nat) (col : Str) (tid : Nat) (ty : SubLinkKind) (testexpr : Option Node) (subselect : Node) (env : Env) :
    TM tid (Str × Env) :=
  (transformFns col tid fuel).transformSubLink ty testexpr subselect env

def transformSortByItem (fuel : Nat) (col : Str) (tid : Nat) (item : Node) (env : Env) :
    TM tid (Str × Env) :=
  (transformFns col tid fuel).transformSortByItem item env


/-- transform.go transformTree: exactly one statement. -/
def transformTree (fuel : Nat) (col : Str) (tid : Nat) (stmts : List Node) :
    TM tid Str :=
  match stmts with
  | [s] => transformStmt fuel col tid s
  | _ => tmErr "wrong number of statements in parse tree, want 1"

/-! ## Driver-facing operations (conn.go) -/

/-- conn.go doTransform, with the trace exposed: tenantIDNum is one more than
the maximum input parameter; the result keeps the list of parameter numbers
the run emitted through addTenantID. -/
def doTransformCore (col : Str) (fuel : Nat) (stmts : List Node) :
    Except Err (Str × List Nat) :=
  match transformTree fuel col (1 + findMaxParamList stmts) stmts with
  | .error e => .error e
  | .ok (res, tr) => .ok (res, tr.map Subtype.val)

/-- conn.go doTransform: the Go triple (string, int, error) with its zero
values on the error path.  Go reports tenantIDNum when isTransformed and 0
otherwise; isTransformed is set exactly when addTenantID ran, i.e. when the
trace is nonempty. -/
def doTransform (col : Str) (fuel : Nat) (stmts : List Node) :
    Str × Nat × Option Err :=
  match doTransformCore col fuel stmts with
  | .error e => ([], 0, some e)
  | .ok (res, inj) =>
    (res, if !inj.isEmpty then 1 + findMaxParamList stmts else 0, none)

/-- The Transformed pair (rewritten query, tenant parameter number). -/
structure Transformed where
  query : Str
  num : Nat
deriving DecidableEq, Repr

/-- Whitelist and dynamic-cache lookup by exact key (Go map / lru.Cache.Get). -/
def lookupQ : List (Str × Transformed) → Str → Option Transformed
  | [], _ => none
  | (k, v) :: rest, key => if k = key then some v else lookupQ rest key

/-- queryCache.add (lru.Cache.Add): insert or update a key.  The LRU bound of
1,000 entries and the eviction policy are outside the rewriter's contract and
are not modelled. -/
def cacheAdd (c : List (Str × Transformed)) (k : Str) (v : Transformed) :
    List (Str × Transformed) :=
  match c with
  | [] => [(k, v)]
  | (k0, v0) :: rest =>
    if k0 = k then (k0, v) :: rest else (k0, v0) :: cacheAdd rest k v

/-- errors.Wrap(ErrUnknownQuery, q). -/
def unknownQueryErr (q : Str) : Err := q ++ chars ": " ++ chars "unknown query"

/-- conn.go (c *Conn) transform.  The external parser (pg_query.Parse) is a
parameter; `ctxQuery` is the escape value from WithQuery (none when the
context carries no string); the result pairs the Go triple with the dynamic
cache after the call. -/
def connTransform (fuel : Nat) (col : Str)
    (whitelist : List (Str × Transformed))
    (parse : Str → Except Err (List Node)) (ctxQuery : Option Str)
    (cache : List (Str × Transformed)) (query : Str) :
    (Str × Nat × Option Err) × List (Str × Transformed) :=
  let q := normalize query
  match lookupQ whitelist q with
  | some found => ((found.query, found.num, none), cache)
  | none =>
    match ctxQuery with
    | none => (([], 0, some (unknownQueryErr q)), cache)
    | some esc =>
      if normalize esc ≠ q then (([], 0, some (unknownQueryErr q)), cache)
      else
        match lookupQ cache q with
        | some found => ((found.query, found.num, none), cache)
        | none =>
          match parse q with
          | .error e => (([], 0, some e), cache)
          | .ok tree =>
            match doTransform col fuel tree with
            | (_, _, some e) => (([], 0, some e), cache)
            | (tq, n, none) => ((tq, n, none), cacheAdd cache q ⟨tq, n⟩)

/-! ## Helper notions used in the statements of the claims -/

/-- The tables of a scope that are still tagged needsTenantID. -/
def needers (env : Env) (tables : List Str) : List Str :=
  tables.filter (fun tb => envGet env tb = Status.needsTenantID)

/-- One tenant predicate: `[table.]col = $tid`. -/
def predOf (col : Str) (tid : Nat) (qual : Bool) (tb : Str) : Str :=
  (if qual then tb ++ chars "." else []) ++ col ++ chars " = " ++
    (chars "$" ++ natStr tid)

/-- Every element prefixed with the separator (the output shape of the
tenant-predicate loop when the `first` flag is already off). -/
def joinMore (sep : Str) (l : List Str) : Str :=
  (l.map (fun p => sep ++ p)).flatten

/-- Mark a set of tables hasTenantID. -/
def envMarkAll (env : Env) (tables : List Str) : Env :=
  tables.foldl (fun e tb => envSet e tb Status.hasTenantID) env

/-- The number of isLeftJoinTable entries of an environment. -/
def countLJT (env : Env) : Nat :=
  (env.filter (fun kv => kv.2 = Status.isLeftJoinTable)).length

/-- The text strictly between the first single quote and the next one: the
content of the first string literal of a query. -/
def innerLiteral (q : Str) : Str :=
  ((q.dropWhile (fun c => !(c = squoteChar))).drop 1).takeWhile
    (fun c => !(c = squoteChar))

/-- Boolean substring test (used to state that an emitted query contains a
given predicate). -/
def isSubstring (pat : Str) : Str → Bool
  | [] => pat.isEmpty
  | c :: rest => pat.isPrefixOf (c :: rest) || isSubstring pat rest

instance instDecEqExcept {ε α : Type} [DecidableEq ε] [DecidableEq α] :
    DecidableEq (Except ε α) := fun x y =>
  match x, y with
  | .error a, .error b =>
    if h : a = b then .isTrue (congrArg Except.error h)
    else .isFalse (fun hh => h (Except.error.inj hh))
  | .ok a, .ok b =>
    if h : a = b then .isTrue (congrArg Except.ok h)
    else .isFalse (fun hh => h (Except.ok.inj hh))
  | .error _, .ok _ => .isFalse Except.noConfusion
  | .ok _, .error _ => .isFalse Except.noConfusion

/-! ## Concrete parse trees used by the claims

Each tree is the pg_query parse of the SQL text named in its comment. -/

/-- Parse tree of `SELECT foo FROM bar`. -/
def treeSelectFooBar : Node :=
  .selectStmt [] [.resTarget none (some (.columnRef [.stringNode (chars "foo")]))]
    [.rangeVar (chars "bar") none] none [] none [] none [] none

/-- Parse tree of `DELETE FROM cotton USING lamp WHERE lamp.x = cotton.y`. -/
def treeDeleteCotton : Node :=
  .deleteStmt (chars "cotton") none [.rangeVar (chars "lamp") none]
    (some (.aExpr .aexprOp [.stringNode (chars "=")]
      (some (.columnRef [.stringNode (chars "lamp"), .stringNode (chars "x")]))
      (some (.columnRef [.stringNode (chars "cotton"), .stringNode (chars "y")]))))

/-- Parse tree of `WITH c AS (SELECT 1) SELECT x FROM c LEFT JOIN r ON c.k = r.k`. -/
def treeCteLeftJoin : Node :=
  .selectStmt [] [.resTarget none (some (.columnRef [.stringNode (chars "x")]))]
    [.joinExpr .joinLeft (.rangeVar (chars "c") none) (.rangeVar (chars "r") none)
      (some (.aExpr .aexprOp [.stringNode (chars "=")]
        (some (.columnRef [.stringNode (chars "c"), .stringNode (chars "k")]))
        (some (.columnRef [.stringNode (chars "r"), .stringNode (chars "k")]))))]
    none [] none [] none []
    (some (.withClause false [.commonTableExpr (chars "c")
      (.selectStmt [] [.resTarget none (some (.aConst (.integerNode 1)))]
        [] none [] none [] none [] none)]))

/-- Parse tree of `UPDATE foo SET a = $1 RETURNING b` (no WHERE clause). -/
def treeUpdateNoWhere : Node :=
  .updateStmt (chars "foo") none
    [.resTarget (some (chars "a")) (some (.paramRef 1))] [] none
    [.resTarget none (some (.columnRef [.stringNode (chars "b")]))] none

/-- Parse tree of a SELECT whose single target is an A_Const holding a
BitString value (e.g. `SELECT B'1010'`). -/
def treeSelectBitString : Node :=
  .selectStmt [] [.resTarget none (some (.aConst (.bitStringNode (chars "b1010"))))]
    [] none [] none [] none [] none

/-- Parse tree of `SELECT CURRENT_TIMESTAMP`. -/
def treeSelectNow : Node :=
  .selectStmt [] [.resTarget none (some (.sqlValueFunction .svfCurrentTimestamp))]
    [] none [] none [] none [] none

/-- Parse tree of `SELECT $1::int8` (the cast parses as the two-element
pg_catalog type name). -/
def treeSelectCastInt8 : Node :=
  .selectStmt [] [.resTarget none (some (.typeCast (.paramRef 1)
    [.stringNode (chars "pg_catalog"), .stringNode (chars "int8")] []))]
    [] none [] none [] none [] none

/-! # Theorems -/

/-- Claim C1: for every rewrite of a single statement, if any tenant-id
injection occurred the reported parameter index equals one greater than the
maximum positional parameter appearing anywhere in the input parse tree, and
every injection site emitted that same index; if no injection occurred the
reported index is 0. -/
theorem claim1_tenant_param_index (col : Str) (fuel : Nat) (stmts : List Node)
    (res : Str) (inj : List Nat)
    (h : doTransformCore col fuel stmts = .ok (res, inj)) :
    (inj = [] → doTransform col fuel stmts = (res, 0, none)) ∧
    (inj ≠ [] →
      doTransform col fuel stmts = (res, 1 + findMaxParamList stmts, none) ∧
      ∀ k ∈ inj, k = 1 + findMaxParamList stmts) := by
  have hall : ∀ k ∈ inj, k = 1 + findMaxParamList stmts := by
    intro k hk
    unfold doTransformCore at h
    cases htr : transformTree fuel col (1 + findMaxParamList stmts) stmts with
    | error e => rw [htr] at h; exact absurd h (by simp)
    | ok p =>
      obtain ⟨r, tr⟩ := p
      rw [htr] at h
      simp only [Except.ok.injEq, Prod.mk.injEq] at h
      obtain ⟨x, hx, hxk⟩ := List.mem_map.mp (h.2 ▸ hk)
      exact hxk ▸ x.property
  refine ⟨fun he => ?_, fun hne => ⟨?_, hall⟩⟩
  · unfold doTransform
    rw [h, he]
    rfl
  · unfold doTransform
    rw [h]
    have hf : inj.isEmpty = false := by
      cases inj with
      | nil => exact absurd rfl hne
      | cons a l => rfl
    simp [hf]

/-- Witness for C1 at the parse tree of `SELECT foo FROM bar`: one injection
site, reported index 1 = one more than the (absent) input parameters. -/
theorem claim1_tenant_param_index_witness :
    doTransform (chars "tenant_id") 50 [treeSelectFooBar] =
      (chars "SELECT foo FROM bar WHERE tenant_id = $1", 1, none) ∧
    ∀ k ∈ [1], k = (1 : Nat) := by
  have h : doTransformCore (chars "tenant_id") 50 [treeSelectFooBar] =
      .ok (chars "SELECT foo FROM bar WHERE tenant_id = $1", [1]) := by decide
  have hmain := (claim1_tenant_param_index (chars "tenant_id") 50 [treeSelectFooBar]
    (chars "SELECT foo FROM bar WHERE tenant_id = $1") [1] h).2 (by decide)
  refine ⟨hmain.1.trans (by decide), fun k hk => ?_⟩
  have := hmain.2 k hk
  rw [this]
  decide

/-- Claim C5: conn.go transform proceeds, in order: normalize; whitelist hit
returns without parsing; otherwise a missing or non-matching context escape
fails with UnknownQuery wrapping the normalized query — for every cache, so a
cached but unescaped query still fails; otherwise a cache hit is returned;
otherwise the query is parsed, rewritten, and the result inserted into the
cache. -/
theorem claim5_transform_order (fuel : Nat) (col : Str)
    (W : List (Str × Transformed)) (parse : Str → Except Err (List Node))
    (ctx : Option Str) (cache : List (Str × Transformed)) (query : Str) :
    (∀ f, lookupQ W (normalize query) = some f →
      connTransform fuel col W parse ctx cache query =
        ((f.query, f.num, none), cache)) ∧
    (lookupQ W (normalize query) = none →
      (ctx = none ∨ ∀ esc, ctx = some esc → ¬ normalize esc = normalize query) →
      connTransform fuel col W parse ctx cache query =
        (([], 0, some (unknownQueryErr (normalize query))), cache)) ∧
    (∀ esc f, lookupQ W (normalize query) = none → ctx = some esc →
      normalize esc = normalize query →
      lookupQ cache (normalize query) = some f →
      connTransform fuel col W parse ctx cache query =
        ((f.query, f.num, none), cache)) ∧
    (∀ esc, lookupQ W (normalize query) = none → ctx = some esc →
      normalize esc = normalize query →
      lookupQ cache (normalize query) = none →
      connTransform fuel col W parse ctx cache query =
        (match parse (normalize query) with
         | .error e => (([], 0, some e), cache)
         | .ok tree =>
           match doTransform col fuel tree with
           | (_, _, some e) => (([], 0, some e), cache)
           | (tq, n, none) => ((tq, n, none), cacheAdd cache (normalize query) ⟨tq, n⟩))) := by
  refine ⟨fun f hw => ?_, fun hw hesc => ?_, fun esc f hw hc hn hcache => ?_,
    fun esc hw hc hn hcache => ?_⟩
  · simp only [connTransform, hw]
  · simp only [connTransform, hw]
    rcases hesc with hnone | hsome
    · rw [hnone]
    · cases hctx : ctx with
      | none => rfl
      | some esc =>
        have := hsome esc hctx
        simp [this]
  · simp only [connTransform, hw, hc]
    simp [hn, hcache]
  · simp only [connTransform, hw, hc]
    simp [hn, hcache]

/-- Witness for C5: with an empty whitelist, a cache holding the query, and
no escape on the context, the call still fails with UnknownQuery and leaves
the cache unchanged. -/
theorem claim5_transform_order_witness :
    connTransform 50 (chars "tenant_id") []
      (fun _ => Except.error (chars "no parse")) none
      [(chars "SELECT 1", ⟨chars "SELECT 1", 0⟩)] (chars "SELECT 1") =
      (([], 0, some (unknownQueryErr (chars "SELECT 1"))),
        [(chars "SELECT 1", ⟨chars "SELECT 1", 0⟩)]) := by
  have h := (claim5_transform_order 50 (chars "tenant_id") []
    (fun _ => Except.error (chars "no parse")) none
    [(chars "SELECT 1", ⟨chars "SELECT 1", 0⟩)] (chars "SELECT 1")).2.1
    (by decide) (Or.inl rfl)
  exact h.trans (by decide)

/-- Claim C6: the rewrite is all-or-nothing.  Whenever the driver-facing
operation reports an error, the rewritten query is empty, the index is 0 and
the cache is exactly the one passed in (errors are never cached); likewise
doTransform reports an empty query and index 0 together with any error. -/
theorem claim6_all_or_nothing :
    (∀ fuel col W parse ctx cache query s n e cache',
      connTransform fuel col W parse ctx cache query = ((s, n, some e), cache') →
      s = [] ∧ n = 0 ∧ cache' = cache) ∧
    (∀ col fuel stmts s n e,
      doTransform col fuel stmts = (s, n, some e) → s = [] ∧ n = 0) := by
  constructor
  · intro fuel col W parse ctx cache query s n e cache' h
    unfold connTransform at h
    cases hW : lookupQ W (normalize query) with
    | some found =>
      simp only [hW, Prod.mk.injEq] at h
      exact absurd h.1.2.2 (by simp)
    | none =>
      simp only [hW] at h
      cases ctx with
      | none =>
        simp only [Prod.mk.injEq] at h
        exact ⟨h.1.1.symm, h.1.2.1.symm, h.2.symm⟩
      | some esc =>
        by_cases hn : normalize esc = normalize query
        · simp only [hn, ne_eq, not_true_eq_false, if_false, ite_false] at h
          cases hC : lookupQ cache (normalize query) with
          | some found =>
            simp only [hC, Prod.mk.injEq] at h
            exact absurd h.1.2.2 (by simp)
          | none =>
            simp only [hC] at h
            cases hP : parse (normalize query) with
            | error e0 =>
              simp only [hP, Prod.mk.injEq] at h
              exact ⟨h.1.1.symm, h.1.2.1.symm, h.2.symm⟩
            | ok tree =>
              simp only [hP] at h
              rcases hD : doTransform col fuel tree with ⟨tq2, n2, oe⟩
              rw [hD] at h
              cases oe with
              | some e0 =>
                simp only [Prod.mk.injEq] at h
                exact ⟨h.1.1.symm, h.1.2.1.symm, h.2.symm⟩
              | none =>
                simp only [Prod.mk.injEq] at h
                exact absurd h.1.2.2 (by simp)
        · simp only [ne_eq, hn, not_false_eq_true, if_true, ite_true,
            Prod.mk.injEq] at h
          exact ⟨h.1.1.symm, h.1.2.1.symm, h.2.symm⟩
  · intro col fuel stmts s n e h
    unfold doTransform at h
    split at h
    · simp only [Prod.mk.injEq] at h
      exact ⟨h.1.symm, h.2.1.symm⟩
    · simp only [Prod.mk.injEq] at h
      exact absurd h.2.2 (by simp)

/-- Witness for C6: a parse failure surfaces the parser's error with empty
query, index 0, and an unchanged (empty) cache. -/
theorem claim6_all_or_nothing_witness :
    connTransform 50 (chars "tenant_id") []
      (fun _ => Except.error (chars "syntax error")) (some (chars "oops")) []
      (chars "oops") = (([], 0, some (chars "syntax error")), []) ∧
    ([] : Str) = [] ∧ (0 : Nat) = 0 ∧ ([] : List (Str × Transformed)) = [] := by
  have hc : connTransform 50 (chars "tenant_id") []
      (fun _ => Except.error (chars "syntax error")) (some (chars "oops")) []
      (chars "oops") = (([], 0, some (chars "syntax error")), []) := by decide
  exact ⟨hc, claim6_all_or_nothing.1 50 (chars "tenant_id") []
    (fun _ => Except.error (chars "syntax error")) (some (chars "oops")) []
    (chars "oops") [] 0 (chars "syntax error") [] hc⟩

set_option maxRecDepth 4000 in
/-- Claim C3 counterexample: on `WITH c AS (SELECT 1) SELECT x FROM c LEFT
JOIN r ON c.k = r.k` the mark is applied to the CTE name c (overwriting its
isCTE tag), and the emitted WHERE clause gives the CTE name a tenant-id
predicate — refuting both "never to a name already tagged isCTE" and "a name
registered as a CTE never receives a tenant-id predicate". -/
theorem claim3_counterexample :
    maybeSetIsLeftJoinTable [(chars "c", Status.isCTE)] (chars "c") =
      [(chars "c", Status.isLeftJoinTable)] ∧
    doTransform (chars "tenant_id") 50 [treeCteLeftJoin] =
      (chars "WITH c AS (SELECT 1) SELECT x FROM c LEFT JOIN r ON c.k = r.k AND r.tenant_id = $1 WHERE c.tenant_id = $1",
        1, none) ∧
    isSubstring (chars "c.tenant_id = $1")
      (doTransform (chars "tenant_id") 50 [treeCteLeftJoin]).1 = true := by
  exact ⟨by decide, by decide, by decide⟩

/-- Helper: a key different from the updated one reads the same. -/
theorem envGet_envSet_ne (env : Env) (k k' : Str) (v : Status)
    (h : ¬ k' = k) : envGet (envSet env k v) k' = envGet env k' := by
  induction env with
  | nil =>
    simp only [envSet, envGet]
    rw [if_neg (fun hh => h hh.symm)]
  | cons kv rest ih =>
    obtain ⟨k0, v0⟩ := kv
    by_cases hk : k0 = k
    · subst hk
      simp only [envSet, if_pos rfl, envGet]
      rw [if_neg (fun hh => h hh.symm), if_neg (fun hh => h hh.symm)]
    · simp only [envSet, if_neg hk, envGet]
      by_cases hk' : k0 = k'
      · rw [if_pos hk', if_pos hk']
      · rw [if_neg hk', if_neg hk', ih]

/-- Helper: countLJT on a cons. -/
theorem countLJT_cons (k : Str) (v : Status) (rest : Env) :
    countLJT ((k, v) :: rest) =
      (if v = Status.isLeftJoinTable then 1 else 0) + countLJT rest := by
  unfold countLJT
  by_cases hv : v = Status.isLeftJoinTable
  · simp [List.filter_cons, hv]
    omega
  · simp [List.filter_cons, hv]

/-- Helper: environments with no isLeftJoinTable entry have count 0. -/
theorem countLJT_eq_zero (env : Env)
    (h : env.any (fun kv => kv.2 = Status.isLeftJoinTable) = false) :
    countLJT env = 0 := by
  unfold countLJT
  rw [List.length_eq_zero, List.filter_eq_nil_iff]
  intro kv hkv
  have := List.any_eq_false.mp h kv hkv
  simpa using this

/-- Helper: setting one key to isLeftJoinTable in a count-0 environment gives
count at most 1. -/
theorem countLJT_envSet_le (env : Env) (tb : Str) (h : countLJT env = 0) :
    countLJT (envSet env tb Status.isLeftJoinTable) ≤ 1 := by
  induction env with
  | nil =>
    show countLJT [(tb, Status.isLeftJoinTable)] ≤ 1
    rw [countLJT_cons, if_pos rfl]
    simp [countLJT]
  | cons kv rest ih =>
    obtain ⟨k0, v0⟩ := kv
    rw [countLJT_cons] at h
    have hrest : countLJT rest = 0 := by omega
    have hv0 : ¬ v0 = Status.isLeftJoinTable := by
      intro hv
      rw [if_pos hv] at h
      omega
    by_cases hk : k0 = tb
    · show countLJT (if k0 = tb then (k0, Status.isLeftJoinTable) :: rest
        else (k0, v0) :: envSet rest tb Status.isLeftJoinTable) ≤ 1
      rw [if_pos hk, countLJT_cons, if_pos rfl]
      omega
    · show countLJT (if k0 = tb then (k0, Status.isLeftJoinTable) :: rest
        else (k0, v0) :: envSet rest tb Status.isLeftJoinTable) ≤ 1
      rw [if_neg hk, countLJT_cons, if_neg hv0]
      have := ih hrest
      omega

/-- Claim C3 amended: the isLeftJoinTable mark is applied to the left
operand's name exactly when no table in the scope already holds the mark,
regardless of that name's current tag — in particular a name tagged isCTE is
overwritten and can then receive a tenant-id predicate (see the
counterexample); the marking function itself never produces a second
isLeftJoinTable holder. -/
theorem claim3_leftjointable_mark :
    (∀ (env : Env) (tb : Str),
      env.any (fun kv => kv.2 = Status.isLeftJoinTable) = true →
      maybeSetIsLeftJoinTable env tb = env) ∧
    (∀ (env : Env) (tb : Str),
      env.any (fun kv => kv.2 = Status.isLeftJoinTable) = false →
      maybeSetIsLeftJoinTable env tb = envSet env tb Status.isLeftJoinTable) ∧
    (∀ (env : Env) (tb : Str), countLJT env ≤ 1 →
      countLJT (maybeSetIsLeftJoinTable env tb) ≤ 1) := by
  refine ⟨fun env tb h => ?_, fun env tb h => ?_, fun env tb h => ?_⟩
  · unfold maybeSetIsLeftJoinTable
    rw [if_pos h]
  · unfold maybeSetIsLeftJoinTable
    have hne : ¬ env.any (fun kv => kv.2 = Status.isLeftJoinTable) = true := by
      rw [h]; exact Bool.false_ne_true
    rw [if_neg hne]
  · unfold maybeSetIsLeftJoinTable
    by_cases hany : env.any (fun kv => kv.2 = Status.isLeftJoinTable) = true
    · rw [if_pos hany]; exact h
    · have hf : env.any (fun kv => kv.2 = Status.isLeftJoinTable) = false :=
        Bool.eq_false_iff.mpr hany
      rw [if_neg hany]
      exact countLJT_envSet_le env tb (countLJT_eq_zero env hf)

/-- Witness for the amended C3 statement at a concrete environment holding a
CTE tag. -/
theorem claim3_leftjointable_mark_witness :
    maybeSetIsLeftJoinTable [(chars "c", Status.isCTE)] (chars "c") =
      envSet [(chars "c", Status.isCTE)] (chars "c") Status.isLeftJoinTable ∧
    countLJT (maybeSetIsLeftJoinTable [(chars "c", Status.isCTE)] (chars "c")) ≤ 1 := by
  exact ⟨claim3_leftjointable_mark.2.1 [(chars "c", Status.isCTE)] (chars "c") (by decide),
    claim3_leftjointable_mark.2.2 [(chars "c", Status.isCTE)] (chars "c") (by decide)⟩

/-- Claim C4 (code bug evidence): an UPDATE with no WHERE clause gets the
fabricated `WHERE tenant_id = $2`, but its RETURNING list is silently
dropped — transformUpdate returns before the RETURNING emission.  Input:
`UPDATE foo SET a = $1 RETURNING b`. -/
theorem claim4_update_no_where_drops_returning :
    doTransform (chars "tenant_id") 50 [treeUpdateNoWhere] =
      (chars "UPDATE foo SET a = $1 WHERE tenant_id = $2", 2, none) ∧
    isSubstring (chars "RETURNING")
      (doTransform (chars "tenant_id") 50 [treeUpdateNoWhere]).1 = false := by
  exact ⟨by decide, by decide⟩

/-- Claim C7 (code bug evidence): an A_Const whose value kind is not
Integer/Float/String/Null (here a BitString, e.g. `SELECT B'1010'`) is
silently emitted as nothing and the rewrite succeeds — transformConst's type
switch has no default case, contradicting "every unrecognized kind is a hard
error". -/
theorem claim7_unrecognized_const_silently_dropped :
    doTransform (chars "tenant_id") 50 [treeSelectBitString] =
      (chars "SELECT ", 0, none) ∧
    transformConst (.bitStringNode (chars "b1010")) = [] := by
  exact ⟨by decide, by decide⟩

/-- Claim C10: a rewrite can succeed with index 0 and still differ from the
normalized input text, because the output is the re-emission of the parse
tree: `SELECT CURRENT_TIMESTAMP` comes back as `SELECT NOW()` and
`SELECT $1::int8` as `SELECT $1::BIGINT`, while both inputs are fixed points
of normalize. -/
theorem claim10_reemission_differs_from_input :
    doTransform (chars "tenant_id") 50 [treeSelectNow] =
      (chars "SELECT NOW()", 0, none) ∧
    normalize (chars "SELECT CURRENT_TIMESTAMP") =
      chars "SELECT CURRENT_TIMESTAMP" ∧
    ¬ chars "SELECT NOW()" = chars "SELECT CURRENT_TIMESTAMP" ∧
    doTransform (chars "tenant_id") 50 [treeSelectCastInt8] =
      (chars "SELECT $1::BIGINT", 0, none) ∧
    normalize (chars "SELECT $1::int8") = chars "SELECT $1::int8" ∧
    ¬ chars "SELECT $1::BIGINT" = chars "SELECT $1::int8" := by
  exact ⟨by decide, by decide, by decide, by decide, by decide, by decide⟩

/-- Helper: joining with a separator is the head followed by the
separator-prefixed tail. -/
theorem joinSep_cons (sep p : Str) (ps : List Str) :
    joinSep sep (p :: ps) = p ++ joinMore sep ps := by
  induction ps generalizing p with
  | nil => simp [joinSep, joinMore]
  | cons q qs ih =>
    show p ++ sep ++ joinSep sep (q :: qs) = _
    rw [ih q]
    simp [joinMore, List.append_assoc]

/-- Helper: updating one table's status does not change which other tables
need a tenant predicate. -/
theorem needers_envSet (env : Env) (tb : Str) (v : Status) (rest : List Str)
    (h : tb ∉ rest) : needers (envSet env tb v) rest = needers env rest := by
  unfold needers
  apply List.filter_congr
  intro x hx
  rw [envGet_envSet_ne env tb x v (fun he => h (he ▸ hx))]

/-- Helper: the unfolding of the fueled transformer by one step. -/
theorem transformFns_succ (col : Str) (tid fuel : Nat) :
    transformFns col tid (fuel + 1) = transformStep col tid (transformFns col tid fuel) :=
  rfl

/-- Helper: tmBind after a pure value. -/
theorem tmBind_tmPure_left {tid : Nat} {α β : Type} (a : α) (k : α → TM tid β) :
    tmBind (tmPure a) k = k a := by
  cases hk : k a with
  | error e => simp [tmBind, tmPure, hk]
  | ok r => simp [tmBind, tmPure, hk]

/-- Helper: envMarkAll on a cons. -/
theorem envMarkAll_cons (env : Env) (tb : Str) (l : List Str) :
    envMarkAll env (tb :: l) = envMarkAll (envSet env tb Status.hasTenantID) l :=
  rfl

/-- Characterization of the tenant-predicate loop: it emits one predicate per
needsTenantID table, in the order of the given list, joined with " AND "
(prefixed with " AND " throughout when the first flag is already off), marks
each such table hasTenantID, and records one injection per predicate. -/
theorem tenantPredGo_spec (col : Str) (tid : Nat) (qual : Bool) :
    ∀ (tables : List Str) (first : Bool) (env : Env), tables.Nodup →
    tenantPredGo col tid qual tables first env =
      .ok (((if first then
          joinSep (chars " AND ") ((needers env tables).map (predOf col tid qual))
        else
          joinMore (chars " AND ") ((needers env tables).map (predOf col tid qual))),
        envMarkAll env (needers env tables)),
        List.replicate (needers env tables).length ⟨tid, rfl⟩) := by
  intro tables
  induction tables with
  | nil =>
    intro first env _
    cases first <;>
      simp [tenantPredGo, tmPure, needers, envMarkAll, joinSep, joinMore]
  | cons tb rest ih =>
    intro first env hnd
    have htb : tb ∉ rest := (List.nodup_cons.mp hnd).1
    have hrest : rest.Nodup := (List.nodup_cons.mp hnd).2
    by_cases hneed : envGet env tb = Status.needsTenantID
    · have hcons : needers env (tb :: rest) = tb :: needers env rest := by
        unfold needers
        rw [List.filter_cons_of_pos (by simp [hneed])]
      have hrec := ih false (envSet env tb Status.hasTenantID) hrest
      rw [needers_envSet env tb Status.hasTenantID rest htb] at hrec
      show (if envGet env tb = Status.needsTenantID then _ else _) = _
      rw [if_pos hneed, hcons]
      simp only [hrec, addTenantID, tmBind, tmPure, List.map_cons,
        List.length_cons, List.replicate_succ, envMarkAll_cons,
        Bool.false_eq_true, if_false]
      cases first
      · simp [joinMore, predOf, List.append_assoc]
      · rw [joinSep_cons]
        simp [joinMore, predOf, List.append_assoc]
    · have hcons : needers env (tb :: rest) = needers env rest := by
        unfold needers
        rw [List.filter_cons_of_neg (by simp [hneed])]
      show (if envGet env tb = Status.needsTenantID then _ else _) = _
      rw [if_neg hneed, hcons]
      exact ih first env hrest

/-- Helper: totality of the byte-order comparison. -/
theorem strLe_total : ∀ a b : Str, strLe a b = true ∨ strLe b a = true := by
  intro a
  induction a with
  | nil => intro b; left; rfl
  | cons c cs ih =>
    intro b
    cases b with
    | nil => right; rfl
    | cons d ds =>
      by_cases h : c = d
      · subst h
        show (if c = c then strLe cs ds else _) = true ∨
          (if c = c then strLe ds cs else _) = true
        rw [if_pos rfl, if_pos rfl]
        exact ih ds
      · show (if c = d then _ else decide (c < d)) = true ∨
          (if d = c then _ else decide (d < c)) = true
        rw [if_neg h, if_neg (fun hh => h hh.symm)]
        rcases lt_trichotomy c d with hlt | heq | hgt
        · left; exact decide_eq_true hlt
        · exact absurd heq h
        · right; exact decide_eq_true hgt

/-- Helper: transitivity of the byte-order comparison. -/
theorem strLe_trans : ∀ a b c : Str,
    strLe a b = true → strLe b c = true → strLe a c = true := by
  intro a
  induction a with
  | nil => intro b c _ _; rfl
  | cons x xs ih =>
    intro b c hab hbc
    cases b with
    | nil => exact absurd hab (by simp [strLe])
    | cons y ys =>
      cases c with
      | nil => exact absurd hbc (by simp [strLe])
      | cons z zs =>
        show (if x = z then strLe xs zs else decide (x < z)) = true
        have hab' : (if x = y then strLe xs ys else decide (x < y)) = true := hab
        have hbc' : (if y = z then strLe ys zs else decide (y < z)) = true := hbc
        by_cases h1 : x = y
        · subst h1
          rw [if_pos rfl] at hab'
          by_cases h2 : x = z
          · rw [if_pos h2]
            rw [if_pos h2] at hbc'
            exact ih ys zs hab' hbc' 
          · rw [if_neg h2]
            rw [if_neg h2] at hbc'
            exact hbc'
        · rw [if_neg h1] at hab'
          have hxy : x < y := of_decide_eq_true hab'
          by_cases h2 : y = z
          · subst h2
            rw [if_neg h1]
            exact decide_eq_true hxy
          · rw [if_neg h2] at hbc'
            have hyz : y < z := of_decide_eq_true hbc'
            have hxz : x < z := lt_trans hxy hyz
            rw [if_neg (ne_of_lt hxz)]
            exact decide_eq_true hxz

/-- Claim C2: when a WHERE clause is emitted, the tenant block appends one
predicate per table still tagged needsTenantID, in the order of the sorted
table list, joined with " AND ", qualified with the table name exactly when
more than one table is in scope or the emission is in onConflict mode; the
table list the WHERE emitter uses is lexicographically sorted; and the DELETE
USING example rewrites as the claim states, with index 1. -/
theorem claim2_where_tenant_predicates :
    (∀ (fuel : Nat) (col : Str) (tid : Nat) (env : Env) (oc : Bool)
      (tables : List Str), tables.Nodup →
      tables.any (fun tb => envGet env tb = Status.needsTenantID) = true →
      transformWhereHelper (fuel + 1) col tid none env oc tables =
        .ok ((joinSep (chars " AND ") ((needers env tables).map
            (predOf col tid (decide (tables.length > 1) || oc))),
          envMarkAll env (needers env tables)),
          List.replicate (needers env tables).length ⟨tid, rfl⟩)) ∧
    (∀ (col : Str) (tid : Nat) (qual : Bool) (tables : List Str) (env : Env),
      tables.Nodup →
      tenantPredGo col tid qual tables true env =
        .ok ((joinSep (chars " AND ") ((needers env tables).map (predOf col tid qual)),
          envMarkAll env (needers env tables)),
          List.replicate (needers env tables).length ⟨tid, rfl⟩)) ∧
    (∀ l : List Str,
      List.Sorted (fun a b => strLe a b = true) (sortStrs l) ∧
      (sortStrs l).Perm l) ∧
    doTransform (chars "tenant_id") 50 [treeDeleteCotton] =
      (chars "DELETE FROM cotton USING lamp WHERE lamp.x = cotton.y AND cotton.tenant_id = $1 AND lamp.tenant_id = $1",
        1, none) := by
  have hgo := tenantPredGo_spec
  refine ⟨?_, fun col tid qual tables env hnd => ?_,
    fun l => ?_, by decide⟩
  · intro fuel col tid env oc tables hnd hany
    show (transformFns col tid (fuel + 1)).transformWhereHelper none env oc tables = _
    rw [transformFns_succ]
    show (if tables.any (fun tb => envGet env tb = Status.needsTenantID) then _ else _) = _
    rw [if_pos hany]
    show tmBind (tmPure (([] : Str), env)) _ = _
    rw [tmBind_tmPure_left]
    show tmBind (tenantPredGo col tid (decide (tables.length > 1) || oc) tables true env)
      (fun rp => tmPure (([] : Str) ++ rp.1, rp.2)) = _
    rw [hgo col tid (decide (tables.length > 1) || oc) tables true env hnd]
    simp [tmBind, tmPure]
  · rw [hgo col tid qual tables true env hnd]
    simp
  · constructor
    · letI : IsTotal Str (fun a b => strLe a b = true) := ⟨strLe_total⟩
      letI : IsTrans Str (fun a b => strLe a b = true) := ⟨strLe_trans⟩
      exact List.sorted_insertionSort _ l
    · exact List.perm_insertionSort _ l

/-- Witness for C2 at the environment of the DELETE example: two tables in
scope, both needing predicates, qualified and joined with " AND " in list
order. -/
theorem claim2_where_tenant_predicates_witness :
    transformWhereHelper 1 (chars "tenant_id") 1 none
      [(chars "cotton", Status.needsTenantID), (chars "lamp", Status.needsTenantID)]
      false [chars "cotton", chars "lamp"] =
      .ok ((chars "cotton.tenant_id = $1 AND lamp.tenant_id = $1",
        [(chars "cotton", Status.hasTenantID), (chars "lamp", Status.hasTenantID)]),
        [⟨1, rfl⟩, ⟨1, rfl⟩]) := by
  have h := claim2_where_tenant_predicates.1 0 (chars "tenant_id") 1
    [(chars "cotton", Status.needsTenantID), (chars "lamp", Status.needsTenantID)]
    false [chars "cotton", chars "lamp"] (by decide) (by decide)
  exact h.trans (by decide)

/-- Helper: the head surviving dropWhile fails the predicate. -/
theorem dropWhile_head_not {α : Type} (p : α → Bool) :
    ∀ (l : List α) (c : α) (t : List α), l.dropWhile p = c :: t → p c = false := by
  intro l
  induction l with
  | nil => intro c t h; simp [List.dropWhile] at h
  | cons a l ih =>
    intro c t h
    rw [List.dropWhile_cons] at h
    by_cases pa : p a = true
    · rw [if_pos pa] at h
      exact ih c t h
    · rw [if_neg pa] at h
      cases h
      simpa using pa

/-- Helper: splitting never yields an empty list of pieces. -/
theorem splitOnNl_ne_nil : ∀ q : Str, splitOnNl q ≠ [] := by
  intro q
  induction q with
  | nil => simp [splitOnNl]
  | cons c rest ih =>
    show (if c = '\n' then [] :: splitOnNl rest
      else match splitOnNl rest with
        | h :: t => (c :: h) :: t
        | [] => [[c]]) ≠ []
    by_cases hc : c = '\n'
    · rw [if_pos hc]; simp
    · rw [if_neg hc]
      cases hsp : splitOnNl rest with
      | nil => simp
      | cons h t => simp

/-- Helper: no piece of the split contains a newline. -/
theorem mem_splitOnNl_no_nl : ∀ (q : Str) (p : Str), p ∈ splitOnNl q → '\n' ∉ p := by
  intro q
  induction q with
  | nil =>
    intro p hp
    simp [splitOnNl] at hp
    simp [hp]
  | cons c rest ih =>
    intro p hp
    by_cases hc : c = '\n'
    · rw [show splitOnNl (c :: rest) = [] :: splitOnNl rest by
        show (if c = '\n' then _ else _) = _; rw [if_pos hc]] at hp
      rcases List.mem_cons.mp hp with h | h
      · simp [h]
      · exact ih p h
    · cases hsp : splitOnNl rest with
      | nil => exact absurd hsp (splitOnNl_ne_nil rest)
      | cons h t =>
        rw [show splitOnNl (c :: rest) = (c :: h) :: t by
          show (if c = '\n' then _ else _) = _
          rw [if_neg hc, hsp]] at hp
        rcases List.mem_cons.mp hp with hh | hh
        · subst hh
          intro hmem
          rcases List.mem_cons.mp hmem with he | he
          · exact hc he.symm
          · exact ih h (hsp ▸ List.mem_cons_self h t) he
        · exact ih p (hsp ▸ List.mem_cons_of_mem _ hh)

/-- Helper: a newline-free string splits into itself. -/
theorem splitOnNl_no_nl : ∀ q : Str, '\n' ∉ q → splitOnNl q = [q] := by
  intro q
  induction q with
  | nil => intro _; rfl
  | cons c rest ih =>
    intro h
    have hc : ¬ c = '\n' := fun hh => h (hh ▸ List.mem_cons_self c rest)
    have hrest : '\n' ∉ rest := fun hh => h (List.mem_cons_of_mem c hh)
    show (if c = '\n' then _ else _) = _
    rw [if_neg hc, ih hrest]

/-- Helper: trimming yields a sublist. -/
theorem trimSpace_sublist (l : Str) : (trimSpace l).Sublist l := by
  unfold trimSpace
  have h2 : ((l.dropWhile goIsSpace).reverse.dropWhile goIsSpace).Sublist
      (l.dropWhile goIsSpace).reverse := List.dropWhile_sublist _
  have h3 := h2.reverse
  rw [List.reverse_reverse] at h3
  exact h3.trans (List.dropWhile_sublist _)

/-- Helper: the trimmed string is a prefix of the left-trimmed string. -/
theorem trimSpace_prefix (l : Str) :
    (trimSpace l).IsPrefix (l.dropWhile goIsSpace) := by
  unfold trimSpace
  rw [← List.reverse_suffix, List.reverse_reverse]
  exact List.dropWhile_suffix _

/-- Helper: the first character of a trimmed string is not whitespace. -/
theorem trimSpace_head_not (l : Str) (c : Char)
    (h : (trimSpace l).head? = some c) : goIsSpace c = false := by
  obtain ⟨s, hs⟩ := trimSpace_prefix l
  cases htr : trimSpace l with
  | nil => rw [htr] at h; simp at h
  | cons a t =>
    rw [htr] at h hs
    cases h
    exact dropWhile_head_not goIsSpace l c (t ++ s) (by rw [← hs]; simp)

/-- Helper: the last character of a trimmed string is not whitespace. -/
theorem trimSpace_getLast_not (l : Str) (c : Char)
    (h : (trimSpace l).getLast? = some c) : goIsSpace c = false := by
  rw [← List.head?_reverse] at h
  unfold trimSpace at h
  rw [List.reverse_reverse] at h
  cases hdw : (l.dropWhile goIsSpace).reverse.dropWhile goIsSpace with
  | nil => rw [hdw] at h; simp at h
  | cons a t =>
    rw [hdw] at h
    cases h
    exact dropWhile_head_not goIsSpace _ c t hdw

/-- Helper: a string whose ends are not whitespace is a trim fixpoint. -/
theorem trimSpace_eq_self (l : Str)
    (h1 : ∀ c, l.head? = some c → goIsSpace c = false)
    (h2 : ∀ c, l.getLast? = some c → goIsSpace c = false) :
    trimSpace l = l := by
  unfold trimSpace
  have e1 : l.dropWhile goIsSpace = l := by
    cases l with
    | nil => rfl
    | cons a t =>
      rw [List.dropWhile_cons, if_neg]
      rw [h1 a rfl]
      simp
  rw [e1]
  have e2 : l.reverse.dropWhile goIsSpace = l.reverse := by
    cases hr : l.reverse with
    | nil => rfl
    | cons b s =>
      have hb : l.getLast? = some b := by
        rw [← List.head?_reverse, hr]; rfl
      rw [List.dropWhile_cons, if_neg]
      rw [h2 b hb]
      simp
  rw [e2, List.reverse_reverse]

/-- Helper: trimming is idempotent. -/
theorem trimSpace_idem (l : Str) : trimSpace (trimSpace l) = trimSpace l :=
  trimSpace_eq_self (trimSpace l) (trimSpace_head_not l) (trimSpace_getLast_not l)

/-- Helper: the head of a joined list with nonempty first piece. -/
theorem joinSep_head (sep : Str) (h : Str) (t : List Str) (hh : h ≠ []) :
    (joinSep sep (h :: t)).head? = h.head? := by
  cases t with
  | nil => rfl
  | cons y ts =>
    show ((h ++ sep ++ joinSep sep (y :: ts))).head? = h.head?
    cases h with
    | nil => exact absurd rfl hh
    | cons a h' => simp

/-- Helper: a joined list ends with its last piece. -/
theorem joinSep_last_ex (sep : Str) :
    ∀ (L : List Str) (g : Str), L.getLast? = some g →
    ∃ pre, joinSep sep L = pre ++ g := by
  intro L
  induction L with
  | nil => intro g h; simp at h
  | cons x t ih =>
    intro g h
    cases t with
    | nil =>
      simp at h
      exact ⟨[], by simp [joinSep, h]⟩
    | cons y ts =>
      rw [List.getLast?_cons_cons] at h
      obtain ⟨pre, hpre⟩ := ih g h
      refine ⟨x ++ sep ++ pre, ?_⟩
      show x ++ sep ++ joinSep sep (y :: ts) = _
      rw [hpre]
      simp [List.append_assoc]

/-- Helper: a join of newline-free pieces with a space is newline-free. -/
theorem joinSep_no_nl :
    ∀ (L : List Str), (∀ p ∈ L, '\n' ∉ p) → '\n' ∉ joinSep (chars " ") L := by
  intro L
  induction L with
  | nil => intro _; simp [joinSep]
  | cons x t ih =>
    intro hall
    cases t with
    | nil => exact hall x (List.mem_cons_self x [])
    | cons y ts =>
      show '\n' ∉ x ++ chars " " ++ joinSep (chars " ") (y :: ts)
      intro hmem
      rcases List.mem_append.mp hmem with hmem1 | hmem2
      · rcases List.mem_append.mp hmem1 with hx | hsp
        · exact hall x (List.mem_cons_self x _) hx
        · simp [chars] at hsp
      · exact ih (fun p hp => hall p (List.mem_cons_of_mem x hp)) hmem2

/-- Claim C9: normalization is idempotent. -/
theorem claim9_normalize_idempotent (q : Str) :
    normalize (normalize q) = normalize q := by
  have hnorm : normalize q = joinSep (chars " ")
      (((((splitOnNl q).map trimSpace).dropWhile List.isEmpty).reverse.dropWhile
        List.isEmpty).reverse) := rfl
  set L : List Str := (((((splitOnNl q).map trimSpace).dropWhile
    List.isEmpty).reverse.dropWhile List.isEmpty).reverse) with hLdef
  have hLM : L.Sublist ((splitOnNl q).map trimSpace) := by
    have s1 := (List.dropWhile_sublist (l := ((((splitOnNl q).map trimSpace).dropWhile
      List.isEmpty).reverse)) List.isEmpty).reverse
    rw [List.reverse_reverse] at s1
    exact s1.trans (List.dropWhile_sublist _)
  have hPL : ∀ p ∈ L, '\n' ∉ p ∧ trimSpace p = p := by
    intro p hp
    have hpM := List.Sublist.mem hp hLM
    obtain ⟨p0, hp0, hpeq⟩ := List.mem_map.mp hpM
    subst hpeq
    refine ⟨fun hnl => ?_, trimSpace_idem p0⟩
    exact mem_splitOnNl_no_nl q p0 hp0 (List.Sublist.mem hnl (trimSpace_sublist p0))
  have hLpre : L.IsPrefix (((splitOnNl q).map trimSpace).dropWhile List.isEmpty) := by
    rw [← List.reverse_suffix]
    rw [hLdef, List.reverse_reverse]
    exact List.dropWhile_suffix _
  cases hcase : L with
  | nil =>
    rw [hnorm, hcase]
    rfl
  | cons h t =>
    have hhmem : h ∈ L := by rw [hcase]; exact List.mem_cons_self h t
    have hhne : h ≠ [] := by
      obtain ⟨s, hs⟩ := hLpre
      rw [hcase] at hs
      intro hemp
      subst hemp
      have : (((splitOnNl q).map trimSpace).dropWhile List.isEmpty) = [] :: (t ++ s) := by
        rw [← hs]; simp
      have := dropWhile_head_not List.isEmpty _ _ _ this
      simp at this
    have hlast : ∀ g, L.getLast? = some g → g ≠ [] := by
      intro g hg
      rw [← List.head?_reverse] at hg
      rw [hLdef, List.reverse_reverse] at hg
      cases hdw : ((((splitOnNl q).map trimSpace).dropWhile
          List.isEmpty).reverse.dropWhile List.isEmpty) with
      | nil => rw [hdw] at hg; simp at hg
      | cons b s =>
        rw [hdw] at hg
        cases hg
        have := dropWhile_head_not List.isEmpty _ _ _ hdw
        simpa [List.isEmpty_iff] using this
    have hgL : ∃ g, L.getLast? = some g := by
      rw [hcase]
      cases hgl : (h :: t).getLast? with
      | none => rw [List.getLast?_eq_none_iff] at hgl; simp at hgl
      | some g => exact ⟨g, rfl⟩
    obtain ⟨g, hg⟩ := hgL
    have hgne : g ≠ [] := hlast g hg
    have hgmem : g ∈ L := by
      have : g ∈ L.getLast? := by rw [hg]; rfl
      rw [← List.head?_reverse] at hg
      have := List.mem_of_mem_head? (l := L.reverse) (by rw [hg]; rfl)
      simpa using this
    -- the joined line
    have hjh : ∀ c, (joinSep (chars " ") L).head? = some c → goIsSpace c = false := by
      intro c hc
      rw [hcase, joinSep_head (chars " ") h t hhne] at hc
      have htr := (hPL h hhmem).2
      rw [← htr] at hc
      exact trimSpace_head_not h c hc
    have hjl : ∀ c, (joinSep (chars " ") L).getLast? = some c → goIsSpace c = false := by
      intro c hc
      obtain ⟨pre, hpre⟩ := joinSep_last_ex (chars " ") L g hg
      rw [hpre, List.getLast?_append] at hc
      cases hglg : g.getLast? with
      | none => rw [List.getLast?_eq_none_iff] at hglg; exact absurd hglg hgne
      | some d =>
        rw [hglg] at hc
        simp only [Option.or] at hc
        injection hc with hdc
        subst hdc
        have htr := (hPL g hgmem).2
        rw [← htr] at hglg
        exact trimSpace_getLast_not g d hglg
    have hjnl : '\n' ∉ joinSep (chars " ") L :=
      joinSep_no_nl L (fun p hp => (hPL p hp).1)
    have hjne : joinSep (chars " ") L ≠ [] := by
      rw [hcase]
      cases t with
      | nil => exact hhne
      | cons y ts =>
        show h ++ chars " " ++ joinSep (chars " ") (y :: ts) ≠ []
        cases h with
        | nil => exact absurd rfl hhne
        | cons a h' => simp
    -- compute normalize of the joined line
    rw [hnorm]
    have htrj : trimSpace (joinSep (chars " ") L) = joinSep (chars " ") L :=
      trimSpace_eq_self _ hjh hjl
    have hje : (joinSep (chars " ") L).isEmpty = false := by
      cases hj : joinSep (chars " ") L with
      | nil => exact absurd hj hjne
      | cons a s => rfl
    show normalize (joinSep (chars " ") L) = joinSep (chars " ") L
    unfold normalize
    rw [splitOnNl_no_nl _ hjnl]
    simp [htrj, hje, List.dropWhile_cons, joinSep]


/-- Claim C8 counterexample: on `SELECT 'a\n b'` (a string literal containing
a newline) normalization rewrites the literal content from "a\n b" to "a b":
the whitespace inside a string literal spanning a line boundary is changed,
so normalization is not semantics-preserving for such queries. -/
theorem claim8_counterexample :
    normalize (chars "SELECT " ++ squoteChar :: 'a' :: '\n' :: ' ' :: 'b' :: [squoteChar]) =
      chars "SELECT " ++ squoteChar :: 'a' :: ' ' :: 'b' :: [squoteChar] ∧
    innerLiteral (chars "SELECT " ++ squoteChar :: 'a' :: '\n' :: ' ' :: 'b' :: [squoteChar]) =
      ['a', '\n', ' ', 'b'] ∧
    innerLiteral (normalize (chars "SELECT " ++ squoteChar :: 'a' :: '\n' :: ' ' :: 'b' :: [squoteChar])) =
      ['a', ' ', 'b'] ∧
    ¬ (['a', ' ', 'b'] : Str) = ['a', '\n', ' ', 'b'] := by
  exact ⟨by decide, by decide, by decide, by decide⟩

/-- Claim C8 amended: the Normalizer touches only line-edge whitespace; a
query without a newline is returned with only its outer whitespace trimmed
(interior whitespace, including inside string literals, untouched).  A string
literal that spans a line boundary has its line-edge whitespace collapsed,
so for such queries normalization can change SQL semantics (see the
counterexample). -/
theorem claim8_normalize_line_edges_only (q : Str) (h : '\n' ∉ q) :
    normalize q = trimSpace q := by
  unfold normalize
  rw [splitOnNl_no_nl q h]
  by_cases he : trimSpace q = []
  · simp [he, joinSep, List.dropWhile_cons]
  · have hje : (trimSpace q).isEmpty = false := by
      cases htr : trimSpace q with
      | nil => exact absurd htr he
      | cons a s => rfl
    simp [hje, List.dropWhile_cons, joinSep]

/-- Witness for the amended C8 statement on a newline-free query. -/
theorem claim8_normalize_line_edges_only_witness :
    normalize (chars "  SELECT 1 ") = trimSpace (chars "  SELECT 1 ") :=
  claim8_normalize_line_edges_only (chars "  SELECT 1 ") (by decide)

end Pgtenant
